import Mathlib

/-!
Verification development for the SecureWifi captive-portal access controller.

The definitions below are a shallow embedding of the JavaScript sources:
  - MAC normalization helpers (auth service, binding service, shared helpers),
  - the SQLite tables (sessions, mac_ip_bindings, firewall_rules, vouchers,
    devices, event_logs) as lists of rows inside a `DB` record,
  - the binding service (createBinding, validateBinding, removeBindingBySession,
    cleanupExpiredBindings),
  - the iptables / ebtables services (rule generators, executeCommand,
    applyAuthenticatedRules, removeClientRules, portal-redirect handling,
    applyClientIsolation, removeClientIsolation, storeRule, markRulesRemoved),
  - the rule engine (grantClientAccess, revokeClientAccess,
    cleanupExpiredSessions),
  - the session service (disconnectSession),
  - the session-firewall integration (onSessionCreated, onSessionEnded),
  - the auth service (authenticateWithVoucher, createSession).

Timestamps are modelled as natural numbers (milliseconds); SQL `datetime`
comparisons become `<` on `Nat`.  Command execution against the host is
modelled by an environment `ExecEnv` giving the outcome of each command
(in simulation mode every command succeeds, as in the source).  The audit
log (`event_logs`) is modelled as a list of (category, type, severity)
records; console output, JWT tokens and bcrypt hashing are not modelled
(they do not affect the table state the claims are about).
-/

namespace SecureWifi

/-! ### String helpers mirroring the JavaScript operations -/

/-- JS `mac.replace(/[:-]/g, '')`: remove every `:` and `-`. -/
def jsStripSeps (s : String) : String :=
  String.mk (s.data.filter (fun c => !(c == ':' || c == '-')))

/-- JS `String.prototype.toLowerCase` (ASCII letters suffice for MACs). -/
def jsToLower (s : String) : String :=
  String.mk (s.data.map Char.toLower)

/-- JS `String.prototype.toUpperCase`. -/
def jsToUpper (s : String) : String :=
  String.mk (s.data.map Char.toUpper)

/-- JS `clean.match(/.{2}/g)`: the list of non-overlapping two-character
chunks; a trailing odd character produces no chunk.  An empty result models
the `null` return of `match`. -/
def chunkPairs : List Char → List String
  | a :: b :: rest => String.mk [a, b] :: chunkPairs rest
  | _ => []

/-- JS `Array.prototype.join(':')`. -/
def joinColon : List String → String
  | [] => ""
  | [p] => p
  | p :: rest => p ++ ":" ++ joinColon rest

/-- The fallback MAC used by the auth service's normalizer. -/
def defaultMac : String := "00:00:00:00:00:00"

/-- `normalizeMacAddress` from the auth service
(`backend/src/config/database.config.js`): a falsy argument (null or the
empty string) yields `defaultMac`; otherwise separators are stripped, the
string is lowercased and re-chunked into colon-separated pairs, falling back
to `defaultMac` when no pair exists. -/
def normalizeMacAddress (mac : Option String) : String :=
  match mac with
  | none => defaultMac
  | some m =>
    if m = "" then defaultMac
    else
      let clean := jsToLower (jsStripSeps m)
      match chunkPairs clean.data with
      | [] => defaultMac
      | ps => joinColon ps

/-- Core of `normalizeMac` from the binding service, for a string argument:
if the separator-stripped lowercase form has length 12 it is re-chunked with
colons, otherwise the original string is merely lowercased. -/
def bindingNormCore (m : String) : String :=
  let clean := jsToLower (jsStripSeps m)
  if clean.length == 12 then joinColon (chunkPairs clean.data)
  else jsToLower m

/-- `normalizeMac` from the binding service
(`backend/src/services/firewall/binding.service.js`): a falsy argument
yields `null` (modelled as `none`). -/
def bindingNormalizeMac (mac : Option String) : Option String :=
  match mac with
  | none => none
  | some m => if m = "" then none else some (bindingNormCore m)

/-- `normalizeMac` from the shared helpers (`utils/helpers.js`): a falsy
argument yields `null`, a stripped form whose length is not 12 also yields
`null`, otherwise the colon-separated lowercase form. -/
def helpersNormalizeMac (mac : Option String) : Option String :=
  match mac with
  | none => none
  | some m =>
    if m = "" then none
    else
      let clean := jsToLower (jsStripSeps m)
      if clean.length == 12 then some (joinColon (chunkPairs clean.data))
      else none

/-! ### Table rows and the database state -/

/-- A row of the `sessions` table (columns the access-control logic reads). -/
structure SessionRow where
  id : Nat
  userId : Option Nat
  voucherId : Option Nat
  deviceId : Nat
  mac : String
  ip : String
  authMethod : String
  expiresAt : Nat
  isActive : Bool
  firewallApplied : Bool
deriving DecidableEq

/-- A row of the `mac_ip_bindings` table.  The schema declares
`UNIQUE(mac_address, ip_address)` and an autoincrement primary key. -/
structure BindingRow where
  id : Nat
  mac : String
  ip : String
  sessionId : Nat
  expiresAt : Option Nat
  isActive : Bool
deriving DecidableEq

/-- A row of the `firewall_rules` table (the rule ledger). -/
structure RuleRow where
  id : Nat
  ruleType : String
  ruleAction : String
  ruleCommand : String
  sessionId : Nat
  mac : String
  ip : String
  isActive : Bool
  isSimulated : Bool
deriving DecidableEq

/-- A row of the `event_logs` table (category, event type, severity). -/
structure EventRow where
  category : String
  eventType : String
  severity : String
deriving DecidableEq

/-- A row of the `vouchers` table. -/
structure VoucherRow where
  id : Nat
  code : String
  durationHours : Nat
  maxDevices : Nat
  expiresAt : Option Nat
  usedAt : Option Nat
  isActive : Bool
deriving DecidableEq

/-- A row of the `devices` table. -/
structure DeviceRow where
  id : Nat
  mac : String
  isBlocked : Bool
deriving DecidableEq

/-- A row of the `users` table (columns the credentials auth path reads). -/
structure UserRow where
  id : Nat
  username : String
  passwordHash : String
  isActive : Bool
  lastLogin : Option Nat
deriving DecidableEq

/-- The database state.  Lists are kept in rowid (insertion) order, matching
SQLite's scan order for the unordered queries the services issue; the
`next…Id` counters model the autoincrement primary keys. -/
structure DB where
  sessions : List SessionRow
  bindings : List BindingRow
  rules : List RuleRow
  vouchers : List VoucherRow
  users : List UserRow
  devices : List DeviceRow
  events : List EventRow
  nextSessionId : Nat
  nextBindingId : Nat
  nextRuleId : Nat
  nextDeviceId : Nat
deriving DecidableEq

/-- Append a row to `event_logs` (the `logEvent` call of the logging
service, keeping only category / type / severity). -/
def appendEvent (db : DB) (e : EventRow) : DB :=
  { db with events := db.events ++ [e] }

/-- Event written by `createBinding` when a MAC rebinds to a new IP. -/
def macIpChangeEvent : EventRow := ⟨"SECURITY", "MAC_IP_CHANGE", "WARNING"⟩

/-- Event written by `createBinding` when two MACs claim one IP. -/
def ipConflictEvent : EventRow := ⟨"SECURITY", "IP_CONFLICT", "WARNING"⟩

/-- Event written by `validateBinding` on an IP mismatch. -/
def bindingViolationEvent : EventRow := ⟨"SECURITY", "BINDING_VIOLATION", "WARNING"⟩

/-- Event written by `grantClientAccess` at the end of a grant. -/
def accessGrantedEvent : EventRow := ⟨"FIREWALL", "ACCESS_GRANTED", "INFO"⟩

/-- Event written by `revokeClientAccess` at the end of a revoke. -/
def accessRevokedEvent : EventRow := ⟨"FIREWALL", "ACCESS_REVOKED", "INFO"⟩

/-! ### Binding service -/

/-- `UPDATE mac_ip_bindings SET is_active = 0 WHERE id = ?`. -/
def retireBindingById (db : DB) (bindingId : Nat) : DB :=
  { db with bindings := db.bindings.map (fun b =>
      if b.id == bindingId then { b with isActive := false } else b) }

/-- `INSERT OR REPLACE INTO mac_ip_bindings (mac_address, ip_address,
session_id, expires_at, is_active) VALUES (?, ?, ?, ?, 1)`: REPLACE deletes
any row with the same `(mac, ip)` (the UNIQUE key) and inserts a fresh row
with a fresh autoincrement id, which becomes `lastInsertRowid`. -/
def insertOrReplaceBinding (db : DB) (mac ip : String) (sessionId : Nat)
    (expiresAt : Option Nat) : DB × Nat :=
  let kept := db.bindings.filter (fun b => !(b.mac == mac && b.ip == ip))
  let bid := db.nextBindingId
  ({ db with
      bindings := kept ++ [⟨bid, mac, ip, sessionId, expiresAt, true⟩],
      nextBindingId := bid + 1 }, bid)

/-- Result object of `createBinding`. -/
structure CreateBindingResult where
  success : Bool
  bindingId : Nat
  macAddress : String
  ipAddress : String
deriving DecidableEq

/-- First conflict check of `createBinding`: an existing ACTIVE binding with
the same (normalized) MAC and a different IP is retired, logging
`MAC_IP_CHANGE`. -/
def retireMacConflict (db : DB) (normalizedMac ipAddress : String) : DB :=
  match db.bindings.find? (fun b =>
      b.mac == normalizedMac && b.isActive && b.ip != ipAddress) with
  | some b => retireBindingById (appendEvent db macIpChangeEvent) b.id
  | none => db

/-- Second conflict check of `createBinding` (run on the updated state): an
existing ACTIVE binding with the same IP and a different MAC is retired,
logging `IP_CONFLICT`. -/
def retireIpConflict (db : DB) (normalizedMac ipAddress : String) : DB :=
  match db.bindings.find? (fun b =>
      b.ip == ipAddress && b.isActive && b.mac != normalizedMac) with
  | some b => retireBindingById (appendEvent db ipConflictEvent) b.id
  | none => db

/-- `createBinding(macAddress, ipAddress, sessionId, expiresAt)` from the
binding service: retire an existing ACTIVE binding with the same normalized
MAC and a different IP (logging `MAC_IP_CHANGE`), then retire an existing
ACTIVE binding with the same IP and a different MAC (logging `IP_CONFLICT`),
then install the new binding via INSERT OR REPLACE.  The `macAddress`
argument is a non-null string here; the database-error catch branch of the
source is unreachable in the model, so `success` is always true. -/
def createBinding (db : DB) (macAddress ipAddress : String) (sessionId : Nat)
    (expiresAt : Option Nat) : CreateBindingResult × DB :=
  let normalizedMac := bindingNormCore macAddress
  let db2 := retireIpConflict (retireMacConflict db normalizedMac ipAddress)
      normalizedMac ipAddress
  let ins := insertOrReplaceBinding db2 normalizedMac ipAddress sessionId expiresAt
  ({ success := true, bindingId := ins.2, macAddress := normalizedMac,
     ipAddress := ipAddress }, ins.1)

/-- Outcome of `validateBinding`. -/
inductive ValidateResult where
  | ok
  | noBinding
  | ipMismatch (expectedIp : String)
  | expired
deriving DecidableEq

/-- `validateBinding(macAddress, ipAddress)` from the binding service: a pure
read of `mac_ip_bindings` (the first ACTIVE row for the normalized MAC),
returning the validation outcome together with the audit events the call
emits (a `BINDING_VIOLATION` warning on IP mismatch). -/
def validateBinding (db : DB) (macAddress ipAddress : String) (now : Nat) :
    ValidateResult × List EventRow :=
  let normalizedMac := bindingNormCore macAddress
  match db.bindings.find? (fun b => b.mac == normalizedMac && b.isActive) with
  | none => (ValidateResult.noBinding, [])
  | some binding =>
    if binding.ip != ipAddress then
      (ValidateResult.ipMismatch binding.ip, [bindingViolationEvent])
    else
      match binding.expiresAt with
      | some e => if e < now then (ValidateResult.expired, []) else (ValidateResult.ok, [])
      | none => (ValidateResult.ok, [])

/-- Row transformation of `removeBindingBySession`. -/
def removeBindingFn (sessionId : Nat) (b : BindingRow) : BindingRow :=
  if b.sessionId == sessionId && b.isActive then { b with isActive := false } else b

/-- `UPDATE mac_ip_bindings SET is_active = 0 WHERE session_id = ? AND
is_active = 1` (`removeBindingBySession`). -/
def removeBindingBySession (db : DB) (sessionId : Nat) : DB :=
  { db with bindings := db.bindings.map (removeBindingFn sessionId) }

/-- `cleanupExpiredBindings`: retire every ACTIVE binding whose non-null
`expires_at` is in the past. -/
def cleanupExpiredBindings (db : DB) (now : Nat) : DB :=
  { db with bindings := db.bindings.map (fun b =>
      if b.isActive && (match b.expiresAt with
                        | some e => decide (e < now)
                        | none => false) then
        { b with isActive := false }
      else b) }

/-! ### Firewall configuration (`backend/src/config/firewall.config.js`,
default environment: no overriding environment variables) -/

/-- `interfaces.bridge` (default `'wlan0'`). -/
def bridgeIface : String := "wlan0"

/-- `interfaces.lan` (default `'eth0'`). -/
def lanIface : String := "eth0"

/-- `network.portalIp` (default `'192.168.4.1'`). -/
def portalIpCfg : String := "192.168.4.1"

/-- `network.gateway` (default `'192.168.4.1'`). -/
def gatewayIpCfg : String := "192.168.4.1"

/-- `portalPorts.portal` (default `3000`). -/
def portalPortCfg : Nat := 3000

/-- `portalPorts.dns` (`53`). -/
def dnsPortCfg : Nat := 53

/-- The default gateway MAC placeholder used by the ebtables service when
`GATEWAY_MAC` is not set. -/
def gatewayMacDefault : String := "dc:a6:32:xx:xx:xx"

/-- The `cleanup` block of the firewall configuration. -/
structure CleanupConfig where
  intervalMs : Nat
  graceperiodMs : Nat
deriving DecidableEq

/-- `firewallConfig.cleanup`: the scheduler interval (60 s) and the grace
period (5 s) declared in the configuration. -/
def firewallCleanupConfig : CleanupConfig := { intervalMs := 60000, graceperiodMs := 5000 }

/-! ### Enforcer abstraction -/

/-- The execution environment of `executeCommand`: `simulationMode` mirrors
`firewallConfig.mode === 'simulation'`; in production mode `execOk` gives the
outcome of executing a full command line on the host. -/
structure ExecEnv where
  simulationMode : Bool
  execOk : String → Bool

/-- Outcome of `executeCommand`: in simulation mode every command succeeds,
otherwise the host decides. -/
def execOutcome (env : ExecEnv) (fullCommand : String) : Bool :=
  env.simulationMode || env.execOk fullCommand

/-- The full command line of `executeCommand`
(`` `iptables ${command}` `` respectively `` `ebtables ${command}` ``). -/
def fullCmd (backend command : String) : String :=
  backend ++ " " ++ command

/-- Observable actions of the firewall services, in execution order:
`exec backend cmd ok` is an `executeCommand` call (the full command line is
`backend ++ " " ++ cmd`), `ledgerInsert` is a `storeRule` insert into
`firewall_rules`. -/
inductive FwAction where
  | exec (backend : String) (command : String) (ok : Bool)
  | ledgerInsert (ruleType : String) (ruleAction : String) (command : String) (sessionId : Nat)
deriving DecidableEq

/-- A rule definition as produced by the generators: a description, the
apply commands and the remove commands. -/
structure RuleDef where
  description : String
  commands : List String
  removeCommands : List String
deriving DecidableEq

/-- `generateAllowRule(macAddress, ipAddress)` (iptables service). -/
def generateAllowRule (macAddress ipAddress : String) : RuleDef :=
  { description := s!"Allow internet access for {macAddress} ({ipAddress})"
    commands := [
      s!"-A FORWARD -i {bridgeIface} -o {lanIface} -m mac --mac-source {macAddress} -s {ipAddress} -j ACCEPT",
      s!"-A FORWARD -i {lanIface} -o {bridgeIface} -d {ipAddress} -j ACCEPT"]
    removeCommands := [
      s!"-D FORWARD -i {bridgeIface} -o {lanIface} -m mac --mac-source {macAddress} -s {ipAddress} -j ACCEPT",
      s!"-D FORWARD -i {lanIface} -o {bridgeIface} -d {ipAddress} -j ACCEPT"] }

/-- `generatePortalRedirectRule(macAddress)` (iptables service). -/
def generatePortalRedirectRule (macAddress : String) : RuleDef :=
  { description := s!"Redirect HTTP to portal for {macAddress}"
    commands := [
      s!"-t nat -A PREROUTING -i {bridgeIface} -m mac --mac-source {macAddress} -p tcp --dport 80 -j DNAT --to-destination {portalIpCfg}:{portalPortCfg}",
      s!"-t nat -A PREROUTING -i {bridgeIface} -m mac --mac-source {macAddress} -p tcp --dport 443 -j DNAT --to-destination {portalIpCfg}:{portalPortCfg}"]
    removeCommands := [
      s!"-t nat -D PREROUTING -i {bridgeIface} -m mac --mac-source {macAddress} -p tcp --dport 80 -j DNAT --to-destination {portalIpCfg}:{portalPortCfg}",
      s!"-t nat -D PREROUTING -i {bridgeIface} -m mac --mac-source {macAddress} -p tcp --dport 443 -j DNAT --to-destination {portalIpCfg}:{portalPortCfg}"] }

/-- `generateBindingRule(macAddress, ipAddress)` (iptables service,
`logging.logPrefix = 'CAPTIVE_PORTAL: '`). -/
def generateBindingRule (macAddress ipAddress : String) : RuleDef :=
  { description := s!"MAC/IP binding validation for {macAddress} -> {ipAddress}"
    commands := [
      s!"-A FORWARD -i {bridgeIface} -m mac --mac-source {macAddress} -s {ipAddress} -j RETURN",
      s!"-A FORWARD -i {bridgeIface} -m mac --mac-source {macAddress} ! -s {ipAddress} -j LOG --log-prefix \"CAPTIVE_PORTAL: SPOOF: \"",
      s!"-A FORWARD -i {bridgeIface} -m mac --mac-source {macAddress} ! -s {ipAddress} -j DROP"]
    removeCommands := [
      s!"-D FORWARD -i {bridgeIface} -m mac --mac-source {macAddress} -s {ipAddress} -j RETURN",
      s!"-D FORWARD -i {bridgeIface} -m mac --mac-source {macAddress} ! -s {ipAddress} -j LOG --log-prefix \"CAPTIVE_PORTAL: SPOOF: \"",
      s!"-D FORWARD -i {bridgeIface} -m mac --mac-source {macAddress} ! -s {ipAddress} -j DROP"] }

/-- `generateDnsAllowRule(macAddress)` (iptables service). -/
def generateDnsAllowRule (macAddress : String) : RuleDef :=
  { description := s!"Allow DNS for {macAddress}"
    commands := [
      s!"-A INPUT -i {bridgeIface} -m mac --mac-source {macAddress} -p udp --dport {dnsPortCfg} -j ACCEPT",
      s!"-A INPUT -i {bridgeIface} -m mac --mac-source {macAddress} -p tcp --dport {dnsPortCfg} -j ACCEPT"]
    removeCommands := [
      s!"-D INPUT -i {bridgeIface} -m mac --mac-source {macAddress} -p udp --dport {dnsPortCfg} -j ACCEPT",
      s!"-D INPUT -i {bridgeIface} -m mac --mac-source {macAddress} -p tcp --dport {dnsPortCfg} -j ACCEPT"] }

/-- `generateMacIpBindingRule(clientMac, clientIp)` (ebtables service,
`logging.logLevel = 4`). -/
def generateMacIpBindingRule (clientMac clientIp : String) : RuleDef :=
  { description := s!"L2 MAC/IP binding for {clientMac} -> {clientIp}"
    commands := [
      s!"-A FORWARD -p ip -i {bridgeIface} --ip-src {clientIp} -s {clientMac} -j ACCEPT",
      s!"-A FORWARD -p ip -i {bridgeIface} -s {clientMac} ! --ip-src {clientIp} -j LOG --log-prefix \"IP_SPOOF: \" --log-level 4",
      s!"-A FORWARD -p ip -i {bridgeIface} -s {clientMac} ! --ip-src {clientIp} -j DROP"]
    removeCommands := [
      s!"-D FORWARD -p ip -i {bridgeIface} --ip-src {clientIp} -s {clientMac} -j ACCEPT",
      s!"-D FORWARD -p ip -i {bridgeIface} -s {clientMac} ! --ip-src {clientIp} -j LOG --log-prefix \"IP_SPOOF: \" --log-level 4",
      s!"-D FORWARD -p ip -i {bridgeIface} -s {clientMac} ! --ip-src {clientIp} -j DROP"] }

/-- `generateArpProtectionRule(gatewayIp, gatewayMac, clientMac, clientIp)`
(ebtables service). -/
def generateArpProtectionRule (gatewayIp gatewayMac clientMac clientIp : String) : RuleDef :=
  { description := s!"ARP protection for {clientMac} ({clientIp})"
    commands := [
      s!"-A FORWARD -p arp --arp-ip-src {gatewayIp} --arp-mac-src {gatewayMac} -j ACCEPT",
      s!"-A FORWARD -p arp --arp-ip-src {clientIp} --arp-mac-src {clientMac} -j ACCEPT",
      s!"-A FORWARD -p arp --arp-ip-src {gatewayIp} ! --arp-mac-src {gatewayMac} -j LOG --log-prefix \"ARP_SPOOF_GW: \" --log-level 4",
      s!"-A FORWARD -p arp --arp-ip-src {gatewayIp} ! --arp-mac-src {gatewayMac} -j DROP",
      s!"-A FORWARD -p arp --arp-mac-src {clientMac} ! --arp-ip-src {clientIp} -j LOG --log-prefix \"ARP_SPOOF_CLIENT: \" --log-level 4",
      s!"-A FORWARD -p arp --arp-mac-src {clientMac} ! --arp-ip-src {clientIp} -j DROP"]
    removeCommands := [
      s!"-D FORWARD -p arp --arp-ip-src {gatewayIp} --arp-mac-src {gatewayMac} -j ACCEPT",
      s!"-D FORWARD -p arp --arp-ip-src {clientIp} --arp-mac-src {clientMac} -j ACCEPT",
      s!"-D FORWARD -p arp --arp-ip-src {gatewayIp} ! --arp-mac-src {gatewayMac} -j LOG --log-prefix \"ARP_SPOOF_GW: \" --log-level 4",
      s!"-D FORWARD -p arp --arp-ip-src {gatewayIp} ! --arp-mac-src {gatewayMac} -j DROP",
      s!"-D FORWARD -p arp --arp-mac-src {clientMac} ! --arp-ip-src {clientIp} -j LOG --log-prefix \"ARP_SPOOF_CLIENT: \" --log-level 4",
      s!"-D FORWARD -p arp --arp-mac-src {clientMac} ! --arp-ip-src {clientIp} -j DROP"] }

/-! ### Rule storage and execution loops -/

/-- `storeRule`: INSERT INTO `firewall_rules` a new APPLIED (`is_active = 1`)
row for the command just executed, with a fresh autoincrement id. -/
def storeRule (db : DB) (ruleType ruleAction command mac ip : String)
    (sessionId : Nat) (simulated : Bool) : DB :=
  let rid := db.nextRuleId
  { db with
      rules := db.rules ++ [⟨rid, ruleType, ruleAction, command, sessionId, mac, ip, true, simulated⟩],
      nextRuleId := rid + 1 }

/-- Row transformation of `markRulesRemoved`: deactivate an ACTIVE row of
the session, optionally restricted to one backend type. -/
def markRemovedFn (sessionId : Nat) (ruleType : Option String) (r : RuleRow) : RuleRow :=
  if r.sessionId == sessionId && r.isActive &&
      (match ruleType with
       | none => true
       | some t => r.ruleType == t) then
    { r with isActive := false }
  else r

/-- `markRulesRemoved(sessionId[, ruleType])`: UPDATE `firewall_rules` SET
`is_active = 0` for every ACTIVE row of the session (optionally restricted
to one backend type). -/
def markRulesRemoved (db : DB) (sessionId : Nat) (ruleType : Option String) : DB :=
  { db with rules := db.rules.map (markRemovedFn sessionId ruleType) }

/-- Execute a list of commands without touching the ledger (the removal
loops and the portal-redirect loops of the source). -/
def execList (env : ExecEnv) (backend : String) : List String → List Bool × List FwAction
  | [] => ([], [])
  | cmd :: rest =>
    let ok := execOutcome env (fullCmd backend cmd)
    let r := execList env backend rest
    (ok :: r.1, FwAction.exec backend cmd ok :: r.2)

/-- The apply loops of `applyAuthenticatedRules` / `applyClientIsolation`:
for each command, first `executeCommand` (awaited), then `storeRule` into
the ledger. -/
def applyAndStore (env : ExecEnv) (backend ruleAction mac ip : String) (sessionId : Nat) :
    List String → DB → List Bool × DB × List FwAction
  | [], db => ([], db, [])
  | cmd :: rest, db =>
    let ok := execOutcome env (fullCmd backend cmd)
    let db1 := storeRule db backend ruleAction cmd mac ip sessionId env.simulationMode
    let r := applyAndStore env backend ruleAction mac ip sessionId rest db1
    (ok :: r.1, r.2.1,
      FwAction.exec backend cmd ok :: FwAction.ledgerInsert backend ruleAction cmd sessionId :: r.2.2)

/-! ### IPTables service -/

/-- The L3 commands applied for an authenticated client, in order: allow
rule, binding rule, DNS rule. -/
def authenticatedRuleCommands (macAddress ipAddress : String) : List String :=
  (generateAllowRule macAddress ipAddress).commands ++
  (generateBindingRule macAddress ipAddress).commands ++
  (generateDnsAllowRule macAddress).commands

/-- The removal counterparts of `authenticatedRuleCommands`. -/
def authenticatedRuleRemoveCommands (macAddress ipAddress : String) : List String :=
  (generateAllowRule macAddress ipAddress).removeCommands ++
  (generateBindingRule macAddress ipAddress).removeCommands ++
  (generateDnsAllowRule macAddress).removeCommands

/-- `applyAuthenticatedRules(macAddress, ipAddress, sessionId)`: execute each
L3 command and store it in the ledger; success is the conjunction of the
per-command outcomes. -/
def applyAuthenticatedRules (env : ExecEnv) (db : DB) (macAddress ipAddress : String)
    (sessionId : Nat) : Bool × DB × List FwAction :=
  let r := applyAndStore env "iptables" "ALLOW" macAddress ipAddress sessionId
      (authenticatedRuleCommands macAddress ipAddress) db
  (r.1.all id, r.2.1, r.2.2)

/-- `removeClientRules(macAddress, ipAddress, sessionId)`: execute the L3
removal commands, then mark every ACTIVE ledger row of the session (all
backends) removed. -/
def removeClientRules (env : ExecEnv) (db : DB) (macAddress ipAddress : String)
    (sessionId : Nat) : Bool × DB × List FwAction :=
  let r := execList env "iptables" (authenticatedRuleRemoveCommands macAddress ipAddress)
  (r.1.all id, markRulesRemoved db sessionId none, r.2)

/-- `applyPortalRedirect(macAddress)`: execute the redirect commands; no
ledger row is written. -/
def applyPortalRedirect (env : ExecEnv) (macAddress : String) : Bool × List FwAction :=
  let r := execList env "iptables" (generatePortalRedirectRule macAddress).commands
  (r.1.all id, r.2)

/-- `removePortalRedirect(macAddress)`: execute the redirect removal
commands; no ledger row is touched. -/
def removePortalRedirect (env : ExecEnv) (macAddress : String) : Bool × List FwAction :=
  let r := execList env "iptables" (generatePortalRedirectRule macAddress).removeCommands
  (r.1.all id, r.2)

/-! ### EBTables service -/

/-- The L2 commands applied for an authenticated client, in order: MAC/IP
binding rule, ARP protection rule (with the configured gateway identity). -/
def isolationRuleCommands (macAddress ipAddress : String) : List String :=
  (generateMacIpBindingRule macAddress ipAddress).commands ++
  (generateArpProtectionRule gatewayIpCfg gatewayMacDefault macAddress ipAddress).commands

/-- The removal counterparts of `isolationRuleCommands`. -/
def isolationRuleRemoveCommands (macAddress ipAddress : String) : List String :=
  (generateMacIpBindingRule macAddress ipAddress).removeCommands ++
  (generateArpProtectionRule gatewayIpCfg gatewayMacDefault macAddress ipAddress).removeCommands

/-- `applyClientIsolation(macAddress, ipAddress, sessionId)`: execute each
L2 command and store it in the ledger. -/
def applyClientIsolation (env : ExecEnv) (db : DB) (macAddress ipAddress : String)
    (sessionId : Nat) : Bool × DB × List FwAction :=
  let r := applyAndStore env "ebtables" "ISOLATION" macAddress ipAddress sessionId
      (isolationRuleCommands macAddress ipAddress) db
  (r.1.all id, r.2.1, r.2.2)

/-- `removeClientIsolation(macAddress, ipAddress, sessionId)`: execute the L2
removal commands, then mark the session's ACTIVE ebtables ledger rows
removed. -/
def removeClientIsolation (env : ExecEnv) (db : DB) (macAddress ipAddress : String)
    (sessionId : Nat) : Bool × DB × List FwAction :=
  let r := execList env "ebtables" (isolationRuleRemoveCommands macAddress ipAddress)
  (r.1.all id, markRulesRemoved db sessionId (some "ebtables"), r.2)

/-! ### Rule engine (`rule-engine.service.js`) -/

/-- Result object of `grantClientAccess` / `revokeClientAccess` (the `steps`
array is reflected in the returned trace; `success` is
`steps.every(s => s.success)`). -/
structure EngineResult where
  success : Bool
deriving DecidableEq

/-- `grantClientAccess({sessionId, macAddress, ipAddress, expiresAt})`:
step 1 creates the MAC/IP binding, step 2 removes the portal redirect,
step 3 applies the L3 rules, step 4 applies the L2 isolation rules; overall
success is the conjunction of the step outcomes and an `ACCESS_GRANTED`
event is logged.  No step failure triggers any compensation in the source:
the function always runs all four steps and returns. -/
def grantClientAccess (env : ExecEnv) (db : DB) (sessionId : Nat)
    (macAddress ipAddress : String) (expiresAt : Option Nat) :
    EngineResult × DB × List FwAction :=
  let b := createBinding db macAddress ipAddress sessionId expiresAt
  let s2 := removePortalRedirect env macAddress
  let s3 := applyAuthenticatedRules env b.2 macAddress ipAddress sessionId
  let s4 := applyClientIsolation env s3.2.1 macAddress ipAddress sessionId
  let success := b.1.success && s2.1 && s3.1 && s4.1
  ({ success := success }, appendEvent s4.2.1 accessGrantedEvent,
    s2.2 ++ s3.2.2 ++ s4.2.2)

/-- `revokeClientAccess({sessionId, macAddress, ipAddress})`: remove the L3
rules (marking every ACTIVE ledger row of the session removed), remove the
L2 rules, retire the session's bindings, re-apply the portal redirect
(executed but not ledgered), and log an `ACCESS_REVOKED` event. -/
def revokeClientAccess (env : ExecEnv) (db : DB) (sessionId : Nat)
    (macAddress ipAddress : String) : EngineResult × DB × List FwAction :=
  let s1 := removeClientRules env db macAddress ipAddress sessionId
  let s2 := removeClientIsolation env s1.2.1 macAddress ipAddress sessionId
  let db3 := removeBindingBySession s2.2.1 sessionId
  let s4 := applyPortalRedirect env macAddress
  let success := s1.1 && s2.1 && true && s4.1
  ({ success := success }, appendEvent db3 accessRevokedEvent,
    s1.2.2 ++ s2.2.2 ++ s4.2)

/-- The query of `cleanupExpiredSessions`: `SELECT DISTINCT s.id, …
FROM sessions s INNER JOIN firewall_rules f ON s.id = f.session_id
WHERE s.expires_at < ? AND f.is_active = 1` — every session (active or not)
whose expiry is before `now` and that still has an ACTIVE ledger row. -/
def expiredSessionsWithRules (db : DB) (now : Nat) : List SessionRow :=
  db.sessions.filter (fun s =>
    decide (s.expiresAt < now) && db.rules.any (fun r => r.sessionId == s.id && r.isActive))

/-- The revocation loop of `cleanupExpiredSessions`, recording
`(sessionId, success)` per revoked session. -/
def revokeAllLoop (env : ExecEnv) : List SessionRow → DB → List (Nat × Bool) × DB
  | [], db => ([], db)
  | s :: rest, db =>
    let r := revokeClientAccess env db s.id s.mac s.ip
    let k := revokeAllLoop env rest r.2.1
    ((s.id, r.1.success) :: k.1, k.2)

/-- `cleanupExpiredSessions()` of the rule engine: revoke every expired
session that still has active rules, then clean up expired bindings.
The configured grace period is not consulted by this function. -/
def cleanupExpiredSessions (env : ExecEnv) (db : DB) (now : Nat) :
    List (Nat × Bool) × DB :=
  let r := revokeAllLoop env (expiredSessionsWithRules db now) db
  (r.1, cleanupExpiredBindings r.2 now)

/-! ### Session service (`session.service.js`) -/

/-- `disconnectSession(sessionId)` (admin action, wired to
`DELETE /api/admin/sessions/:id`): deactivate the session and its bindings.
The `firewall_rules` table is not touched by this function. -/
def disconnectSession (db : DB) (sessionId : Nat) : Bool × DB :=
  match db.sessions.find? (fun s => s.id == sessionId) with
  | none => (false, db)
  | some _ =>
    let db1 := { db with sessions := db.sessions.map (fun (s : SessionRow) =>
        if s.id == sessionId then { s with isActive := false } else s) }
    let db2 := { db1 with bindings := db1.bindings.map (fun (b : BindingRow) =>
        if b.sessionId == sessionId then { b with isActive := false } else b) }
    (true, db2)

/-! ### Session-firewall integration (`session-firewall.service.js`) -/

/-- `onSessionCreated(session)`: grant access via the rule engine, then
record the outcome in `sessions.firewall_applied`. -/
def onSessionCreated (env : ExecEnv) (db : DB) (s : SessionRow) : EngineResult × DB :=
  let g := grantClientAccess env db s.id s.mac s.ip (some s.expiresAt)
  let db1 := { g.2.1 with sessions := g.2.1.sessions.map (fun t =>
      if t.id == s.id then { t with firewallApplied := g.1.success } else t) }
  (g.1, db1)

/-- `onSessionEnded(session, reason)`: revoke access via the rule engine,
then `UPDATE sessions SET is_active = 0, firewall_applied = 0`. -/
def onSessionEnded (env : ExecEnv) (db : DB) (s : SessionRow) : EngineResult × DB :=
  let r := revokeClientAccess env db s.id s.mac s.ip
  let db1 := { r.2.1 with sessions := r.2.1.sessions.map (fun t =>
      if t.id == s.id then { t with isActive := false, firewallApplied := false } else t) }
  (r.1, db1)

/-! ### Auth service (`database.config.js`, authentication section) -/

/-- Result object of `authenticateWithVoucher` (token generation is not
modelled; `message` distinguishes the branches of the source). -/
structure AuthResult where
  success : Bool
  sessionId : Option Nat
  message : String
deriving DecidableEq

/-- `voucher.expires_at && new Date(voucher.expires_at) < new Date()`. -/
def voucherExpired (v : VoucherRow) (now : Nat) : Bool :=
  match v.expiresAt with
  | some e => decide (e < now)
  | none => false

/-- `COUNT(DISTINCT mac_address)` over a list of session rows. -/
def countDistinctMacs (l : List SessionRow) : Nat :=
  (l.map (fun s => s.mac)).dedup.length

/-- `getOrCreateDevice(macAddress)`: return the device row for the MAC,
inserting a fresh one when absent (the `last_seen` touch is not modelled —
the column is not read by any operation modelled here). -/
def getOrCreateDevice (db : DB) (macAddress : String) : DeviceRow × DB :=
  match db.devices.find? (fun d => d.mac == macAddress) with
  | some d => (d, db)
  | none =>
    let did := db.nextDeviceId
    let d : DeviceRow := ⟨did, macAddress, false⟩
    (d, { db with devices := db.devices ++ [d], nextDeviceId := did + 1 })

/-- `createSession({…})` of the auth service: insert the session row
(`is_active` defaults to 1), compute `expiresAt = now + durationHours * 1h`,
and run the bare `INSERT OR REPLACE INTO mac_ip_bindings (mac_address,
ip_address, session_id, expires_at)` — note this insert performs none of the
conflict retirement of the binding service.  The source then dispatches
`onSessionCreated` to run in the background without awaiting it; that
asynchronous grant is modelled as the separate operation `onSessionCreated`,
which the event loop runs only after the authentication call has returned. -/
def createSessionAuth (db : DB) (userId voucherId : Option Nat) (deviceId : Nat)
    (macAddress ipAddress authMethod : String) (durationHours now : Nat) : DB × Nat :=
  let expiresAt := now + durationHours * 60 * 60 * 1000
  let sid := db.nextSessionId
  let row : SessionRow :=
    ⟨sid, userId, voucherId, deviceId, macAddress, ipAddress, authMethod, expiresAt, true, false⟩
  let db1 := { db with sessions := db.sessions ++ [row], nextSessionId := sid + 1 }
  let ins := insertOrReplaceBinding db1 macAddress ipAddress sid (some expiresAt)
  (ins.1, sid)

/-- `UPDATE vouchers SET used_at = CURRENT_TIMESTAMP, used_by_device = ?
WHERE id = ?` (first use of a voucher). -/
def markVoucherUsed (db : DB) (voucherId : Nat) (now : Nat) : DB :=
  { db with vouchers := db.vouchers.map (fun v =>
      if v.id == voucherId then { v with usedAt := some now } else v) }

/-- `authenticateWithVoucher(code, macAddress, ipAddress)`: look up the
active voucher by upper-cased code, reject expired vouchers, enforce the
per-voucher device ceiling, reject blocked devices, resume an existing
active session for the same voucher and MAC, and otherwise create a new
session (marking the voucher used on first use). -/
def authenticateWithVoucher (db : DB) (code macAddress ipAddress : String)
    (now : Nat) : AuthResult × DB :=
  let normalizedMac := normalizeMacAddress (some macAddress)
  match db.vouchers.find? (fun v => v.code == jsToUpper code && v.isActive) with
  | none => ({ success := false, sessionId := none, message := "Invalid voucher code" }, db)
  | some voucher =>
    if voucherExpired voucher now then
      ({ success := false, sessionId := none, message := "Voucher has expired" }, db)
    else
      let deviceCount := countDistinctMacs (db.sessions.filter (fun s =>
          s.voucherId == some voucher.id && s.isActive))
      let existingSession := db.sessions.find? (fun s =>
          s.voucherId == some voucher.id && s.mac == normalizedMac && s.isActive)
      if existingSession.isNone && decide (voucher.maxDevices ≤ deviceCount) then
        ({ success := false, sessionId := none,
           message := "Maximum devices reached for this voucher" }, db)
      else
        let dev := getOrCreateDevice db normalizedMac
        if dev.1.isBlocked then
          ({ success := false, sessionId := none,
             message := "This device has been blocked" }, dev.2)
        else
          match existingSession with
          | some s =>
            ({ success := true, sessionId := some s.id, message := "Session resumed" }, dev.2)
          | none =>
            let cs := createSessionAuth dev.2 none (some voucher.id) dev.1.id
                normalizedMac ipAddress "voucher" voucher.durationHours now
            let db3 := if voucher.usedAt.isNone then markVoucherUsed cs.1 voucher.id now else cs.1
            ({ success := true, sessionId := some cs.2,
               message := "Authentication successful" }, db3)

/-- `config.session.durationHours` (default 4, `app.config.js`). -/
def sessionDurationHours : Nat := 4

/-- `config.session.maxDevicesPerUser` (default 2, `app.config.js`). -/
def sessionMaxDevicesPerUser : Nat := 2

/-- `UPDATE users SET last_login = CURRENT_TIMESTAMP WHERE id = ?`. -/
def markUserLoggedIn (db : DB) (userId : Nat) (now : Nat) : DB :=
  { db with users := db.users.map (fun u =>
      if u.id == userId then { u with lastLogin := some now } else u) }

/-- `authenticateWithCredentials(username, password, macAddress, ipAddress)`:
look up the active user by username, verify the password (`bcrypt.compare`
is modelled by the `bcryptOk` oracle), reject blocked devices, enforce the
per-user device ceiling, resume an existing active session for the same
user and MAC, and otherwise create a new session and record the login.
The device-blocked check precedes the ceiling check on this path (unlike
the voucher path), as in the source. -/
def authenticateWithCredentials (bcryptOk : String → String → Bool) (db : DB)
    (username password macAddress ipAddress : String) (now : Nat) : AuthResult × DB :=
  let normalizedMac := normalizeMacAddress (some macAddress)
  match db.users.find? (fun u => u.username == username && u.isActive) with
  | none =>
    ({ success := false, sessionId := none, message := "Invalid username or password" }, db)
  | some user =>
    if !(bcryptOk password user.passwordHash) then
      ({ success := false, sessionId := none, message := "Invalid username or password" }, db)
    else
      let dev := getOrCreateDevice db normalizedMac
      if dev.1.isBlocked then
        ({ success := false, sessionId := none,
           message := "This device has been blocked" }, dev.2)
      else
        let activeDevices := countDistinctMacs (db.sessions.filter (fun s =>
            s.userId == some user.id && s.isActive))
        let existingSession := db.sessions.find? (fun s =>
            s.userId == some user.id && s.mac == normalizedMac && s.isActive)
        if existingSession.isNone && decide (sessionMaxDevicesPerUser ≤ activeDevices) then
          ({ success := false, sessionId := none,
             message := "Maximum devices reached" }, dev.2)
        else
          match existingSession with
          | some s =>
            ({ success := true, sessionId := some s.id, message := "Session resumed" }, dev.2)
          | none =>
            let cs := createSessionAuth dev.2 (some user.id) none dev.1.id
                normalizedMac ipAddress "user" sessionDurationHours now
            let db3 := markUserLoggedIn cs.1 user.id now
            ({ success := true, sessionId := some cs.2,
               message := "Authentication successful" }, db3)

/-! ### Derived notions used in the statements -/

/-- The ACTIVE (APPLIED) ledger rows of a session. -/
def activeRulesFor (db : DB) (sessionId : Nat) : List RuleRow :=
  db.rules.filter (fun r => r.sessionId == sessionId && r.isActive)

/-- The ACTIVE session rows of a MAC. -/
def activeSessionsForMac (db : DB) (mac : String) : List SessionRow :=
  db.sessions.filter (fun s => s.mac == mac && s.isActive)

/-- Invariant (B1): at most one ACTIVE binding row per MAC (two active rows
with the same MAC coincide). -/
def atMostOneActivePerMac (bs : List BindingRow) : Prop :=
  ∀ b1 ∈ bs, ∀ b2 ∈ bs, b1.isActive = true → b2.isActive = true → b1.mac = b2.mac → b1 = b2

/-- Invariant (B2): at most one ACTIVE binding row per IP. -/
def atMostOneActivePerIp (bs : List BindingRow) : Prop :=
  ∀ b1 ∈ bs, ∀ b2 ∈ bs, b1.isActive = true → b2.isActive = true → b1.ip = b2.ip → b1 = b2

/-- The binding-table ids are below the autoincrement counter (true of every
state the services produce). -/
def bindingIdsFresh (db : DB) : Prop :=
  ∀ b ∈ db.bindings, b.id < db.nextBindingId

/-- The binding-table primary key determines the row. -/
def bindingIdsInjective (db : DB) : Prop :=
  ∀ b1 ∈ db.bindings, ∀ b2 ∈ db.bindings, b1.id = b2.id → b1 = b2

/-- Write-ahead discipline over a firewall trace: every executed command was
inserted into the ledger at an earlier point of the trace (`seen` carries
the commands inserted so far). -/
def writeAheadOk (seen : List String) : List FwAction → Bool
  | [] => true
  | FwAction.ledgerInsert _ _ c _ :: rest => writeAheadOk (c :: seen) rest
  | FwAction.exec _ c _ :: rest => seen.contains c && writeAheadOk seen rest

/-- Write-behind shape: the trace is a sequence of `exec c` immediately
followed by `ledgerInsert c` pairs. -/
def pairedExecThenInsert : List FwAction → Bool
  | [] => true
  | FwAction.exec _ c _ :: FwAction.ledgerInsert _ _ c' _ :: rest =>
      c == c' && pairedExecThenInsert rest
  | _ => false

/-- All full command lines a grant executes, in order: portal-redirect
removal, L3 apply commands, L2 apply commands. -/
def grantExecCommands (macAddress ipAddress : String) : List String :=
  ((generatePortalRedirectRule macAddress).removeCommands.map (fullCmd "iptables")) ++
  ((authenticatedRuleCommands macAddress ipAddress).map (fullCmd "iptables")) ++
  ((isolationRuleCommands macAddress ipAddress).map (fullCmd "ebtables"))

/-- Every command of the list succeeds under the environment. -/
def allCommandsOk (env : ExecEnv) (cmds : List String) : Bool :=
  cmds.all (fun c => execOutcome env c)

/-- Whether a binding row counts as expired at `now` (a null `expires_at`
never expires). -/
def bindingExpiredAt (b : BindingRow) (now : Nat) : Bool :=
  match b.expiresAt with
  | some e => decide (e < now)
  | none => false

/-! ### Concrete scenario used by the counterexamples

The runs below start from the database as `initializeDatabase` seeds it
(`createSampleVouchers`: TEST1234 for 4 h and up to 2 devices, DEMO5678 for
8 h and 1 device, WIFI2024 for 24 h and 3 devices) and replay the public
operations, so every state reached is reachable in the source. -/

/-- The simulation-mode environment (every command succeeds). -/
def simEnv : ExecEnv := { simulationMode := true, execOk := fun _ => true }

/-- A production-mode environment in which every ebtables command fails
(e.g. the ebtables binary is missing), as in the spec's partial-failure
scenario; iptables commands succeed. -/
def ebtFaultEnv : ExecEnv :=
  { simulationMode := false, execOk := fun c => !(c.data.take 8 == "ebtables".data) }

/-- The client MAC of the scenario. -/
def macX : String := "aa:bb:cc:dd:ee:01"

/-- The client's first IP. -/
def ipA : String := "192.168.4.10"

/-- The client's second IP. -/
def ipB : String := "192.168.4.11"

/-- The database right after `initializeDatabase` (sample vouchers seeded,
no sessions, bindings, rules, devices or events). -/
def seededDB : DB :=
  { sessions := [], bindings := [], rules := [],
    vouchers := [⟨1, "TEST1234", 4, 2, none, none, true⟩,
                 ⟨2, "DEMO5678", 8, 1, none, none, true⟩,
                 ⟨3, "WIFI2024", 24, 3, none, none, true⟩],
    users := [], devices := [], events := [],
    nextSessionId := 1, nextBindingId := 1, nextRuleId := 1, nextDeviceId := 1 }

/-- First authentication: voucher TEST1234 for `macX` at `ipA`, at time 0. -/
def run1 : AuthResult × DB := authenticateWithVoucher seededDB "TEST1234" macX ipA 0

/-- Second authentication: voucher DEMO5678 for the same MAC at `ipB`,
1 s later, while the first session is still active. -/
def run2 : AuthResult × DB := authenticateWithVoucher run1.2 "DEMO5678" macX ipB 1000

/-- The session row created by `run1`. -/
def session1? : Option SessionRow := run1.2.sessions.find? (fun s => s.id == 1)

/-- The state after `run1`'s background firewall grant (`onSessionCreated`)
has completed: session 1 is active with its rules in the ledger. -/
def dbGranted : DB :=
  match session1? with
  | some s => (onSessionCreated simEnv run1.2 s).2
  | none => run1.2

/-- Operator disconnect of session 1 from `dbGranted`
(`DELETE /api/admin/sessions/1`). -/
def disconnectRun : Bool × DB := disconnectSession dbGranted 1

/-- A grant attempted under `ebtFaultEnv` for a fresh pending session
(session 1 of `run1`): the two L2 steps fail. -/
def grantFailRun : EngineResult × DB × List FwAction :=
  grantClientAccess ebtFaultEnv run1.2 1 macX ipA (some 14400000)

/-- The empty database (before any operation). -/
def emptyDB : DB :=
  { sessions := [], bindings := [], rules := [], vouchers := [], users := [],
    devices := [], events := [],
    nextSessionId := 1, nextBindingId := 1, nextRuleId := 1, nextDeviceId := 1 }

/-- Round trip for C6: grant then revoke for session 1 on the empty
database, in simulation mode. -/
def roundTripRun : EngineResult × DB × List FwAction :=
  revokeClientAccess simEnv (grantClientAccess simEnv emptyDB 1 macX ipA (some 14400000)).2.1 1 macX ipA

/-- One reconciliation cycle over `dbGranted`, 1 ms after session 1's expiry
(still within the configured 5 s grace period). -/
def cleanupRun : List (Nat × Bool) × DB := cleanupExpiredSessions simEnv dbGranted 14400001

/-- A state holding one active binding of `macX` to `ipA` (used by
witnesses). -/
def dbOneBinding : DB :=
  { sessions := [], bindings := [⟨1, macX, ipA, 1, none, true⟩], rules := [],
    vouchers := [], users := [], devices := [], events := [],
    nextSessionId := 2, nextBindingId := 2, nextRuleId := 1, nextDeviceId := 1 }

/-- A state holding one registered active user (as `registerUser` inserts
it), used by the credentials-path witness. -/
def dbUserSeed : DB :=
  { sessions := [], bindings := [], rules := [], vouchers := [],
    users := [⟨1, "alice", "bcrypt-hash", true, none⟩], devices := [], events := [],
    nextSessionId := 1, nextBindingId := 1, nextRuleId := 1, nextDeviceId := 1 }

/-- A bcrypt oracle under which the presented password matches the stored
hash (`bcrypt.compare` succeeding). -/
def bcryptAlways : String → String → Bool := fun _ _ => true

/-! ## Theorems

First a collection of small lemmas about the state operations, then one
theorem per claim (with its witness or counterexample). -/

set_option maxRecDepth 100000

@[simp] theorem appendEvent_sessions (db : DB) (e : EventRow) :
    (appendEvent db e).sessions = db.sessions := rfl

@[simp] theorem appendEvent_bindings (db : DB) (e : EventRow) :
    (appendEvent db e).bindings = db.bindings := rfl

@[simp] theorem appendEvent_rules (db : DB) (e : EventRow) :
    (appendEvent db e).rules = db.rules := rfl

@[simp] theorem appendEvent_nextBindingId (db : DB) (e : EventRow) :
    (appendEvent db e).nextBindingId = db.nextBindingId := rfl

@[simp] theorem appendEvent_events (db : DB) (e : EventRow) :
    (appendEvent db e).events = db.events ++ [e] := rfl

@[simp] theorem retireBindingById_sessions (db : DB) (bid : Nat) :
    (retireBindingById db bid).sessions = db.sessions := rfl

@[simp] theorem retireBindingById_rules (db : DB) (bid : Nat) :
    (retireBindingById db bid).rules = db.rules := rfl

@[simp] theorem retireBindingById_events (db : DB) (bid : Nat) :
    (retireBindingById db bid).events = db.events := rfl

@[simp] theorem retireBindingById_nextBindingId (db : DB) (bid : Nat) :
    (retireBindingById db bid).nextBindingId = db.nextBindingId := rfl

@[simp] theorem insertOrReplaceBinding_sessions (db : DB) (m i : String) (s : Nat) (e : Option Nat) :
    (insertOrReplaceBinding db m i s e).1.sessions = db.sessions := rfl

@[simp] theorem insertOrReplaceBinding_rules (db : DB) (m i : String) (s : Nat) (e : Option Nat) :
    (insertOrReplaceBinding db m i s e).1.rules = db.rules := rfl

@[simp] theorem insertOrReplaceBinding_events (db : DB) (m i : String) (s : Nat) (e : Option Nat) :
    (insertOrReplaceBinding db m i s e).1.events = db.events := rfl

@[simp] theorem storeRule_sessions (db : DB) (t a c m i : String) (s : Nat) (sim : Bool) :
    (storeRule db t a c m i s sim).sessions = db.sessions := rfl

@[simp] theorem storeRule_bindings (db : DB) (t a c m i : String) (s : Nat) (sim : Bool) :
    (storeRule db t a c m i s sim).bindings = db.bindings := rfl

@[simp] theorem markRulesRemoved_sessions (db : DB) (s : Nat) (t : Option String) :
    (markRulesRemoved db s t).sessions = db.sessions := rfl

@[simp] theorem markRulesRemoved_bindings (db : DB) (s : Nat) (t : Option String) :
    (markRulesRemoved db s t).bindings = db.bindings := rfl

@[simp] theorem removeBindingBySession_sessions (db : DB) (s : Nat) :
    (removeBindingBySession db s).sessions = db.sessions := rfl

@[simp] theorem removeBindingBySession_rules (db : DB) (s : Nat) :
    (removeBindingBySession db s).rules = db.rules := rfl

@[simp] theorem cleanupExpiredBindings_sessions (db : DB) (now : Nat) :
    (cleanupExpiredBindings db now).sessions = db.sessions := rfl

@[simp] theorem cleanupExpiredBindings_rules (db : DB) (now : Nat) :
    (cleanupExpiredBindings db now).rules = db.rules := rfl

theorem applyAndStore_sessions (env : ExecEnv) (b a m i : String) (s : Nat)
    (cmds : List String) (db : DB) :
    (applyAndStore env b a m i s cmds db).2.1.sessions = db.sessions := by
  induction cmds generalizing db with
  | nil => rfl
  | cons c rest ih => simpa [applyAndStore] using ih (storeRule db b a c m i s env.simulationMode)

theorem applyAndStore_bindings (env : ExecEnv) (b a m i : String) (s : Nat)
    (cmds : List String) (db : DB) :
    (applyAndStore env b a m i s cmds db).2.1.bindings = db.bindings := by
  induction cmds generalizing db with
  | nil => rfl
  | cons c rest ih => simpa [applyAndStore] using ih (storeRule db b a c m i s env.simulationMode)

theorem applyAndStore_rules (env : ExecEnv) (b a m i : String) (s : Nat)
    (cmds : List String) (db : DB) :
    ∃ new, (applyAndStore env b a m i s cmds db).2.1.rules = db.rules ++ new ∧
      ∀ r ∈ new, r.sessionId = s ∧ r.isActive = true := by
  induction cmds generalizing db with
  | nil => exact ⟨[], by simp [applyAndStore], by simp⟩
  | cons c rest ih =>
    obtain ⟨new, hnew, hact⟩ := ih (storeRule db b a c m i s env.simulationMode)
    refine ⟨⟨db.nextRuleId, b, a, c, s, m, i, true, env.simulationMode⟩ :: new, ?_, ?_⟩
    · simpa [applyAndStore, storeRule] using hnew
    · intro r hr
      rw [List.mem_cons] at hr
      rcases hr with hr | hr
      · subst hr; exact ⟨rfl, rfl⟩
      · exact hact r hr

/-! ### C2 — operator disconnect leaves APPLIED ledger rows -/

/-- C2: evaluating the code at the failing input.  From the reachable state
`dbGranted` (voucher authentication of `macX` followed by the background
firewall grant: session 1 ACTIVE with 16 APPLIED `firewall_rules` rows), the
admin disconnect `DELETE /api/admin/sessions/1` runs
`sessionService.disconnectSession(1)`, which terminates the session and
retires its bindings but leaves all 16 ledger rows APPLIED (`is_active = 1`),
contradicting the claim that every terminating operation leaves zero active
rule rows. -/
theorem disconnectSession_leavesRulesApplied :
    disconnectRun.1 = true ∧
    activeSessionsForMac disconnectRun.2 macX = [] ∧
    (activeRulesFor dbGranted 1).length = 16 ∧
    (activeRulesFor disconnectRun.2 1).length = 16 := by decide

/-! ### C1 — a MAC can hold two ACTIVE sessions -/

/-- C1 (counterexample): from the seeded database, authenticating `macX`
with voucher TEST1234 and then — while that session is still ACTIVE — with
voucher DEMO5678 succeeds both times and leaves two ACTIVE session rows for
the same MAC, refuting the per-MAC uniqueness invariant. -/
theorem secondVoucherCreatesSecondActiveSession :
    run1.1.success = true ∧ run2.1.success = true ∧
    (activeSessionsForMac run2.2 macX).length = 2 := by decide

/-! ### C3 — the auth-service binding insert breaks binding uniqueness -/

/-- C3 (counterexample): in the state reached by the two successful
authentications of `run2`, the bare `INSERT OR REPLACE` of the auth
service's `createSession` has left two ACTIVE `mac_ip_bindings` rows for
`macX` (one per IP), refuting the per-MAC uniqueness of active bindings. -/
theorem createSessionInsertBreaksBindingUniqueness :
    run2.1.success = true ∧
    (run2.2.bindings.filter (fun b => b.mac == macX && b.isActive)).length = 2 := by decide

/-! ### C4 — no compensating revoke on a failed grant -/

/-- C4 (counterexample): under `ebtFaultEnv` (every ebtables command fails,
as in the spec's step-failure scenario) `grantClientAccess` reports failure
but initiates no compensating revoke: the session table is untouched
(session 1 stays ACTIVE) and all 16 ledger rows written during the grant
remain APPLIED — the failed session neither ends TERMINATED nor has zero
APPLIED rows. -/
theorem grantClientAccess_noCompensatingRevoke :
    grantFailRun.1.success = false ∧
    grantFailRun.2.1.sessions = run1.2.sessions ∧
    (activeSessionsForMac grantFailRun.2.1 macX).length = 1 ∧
    (activeRulesFor grantFailRun.2.1 1).length = 16 := by decide

/-! ### C5 — the ledger write is not write-ahead -/

/-- C5 (counterexample): the trace of `applyAuthenticatedRules` on a concrete
input violates the write-ahead discipline — its very first action is an
enforcer execution whose command has no earlier ledger insert (the source
awaits `executeCommand` and only then calls `storeRule`). -/
theorem applyAuthenticatedRules_notWriteAhead :
    writeAheadOk [] (applyAuthenticatedRules simEnv emptyDB macX ipA 1).2.2 = false := by decide

/-! ### C6 — the re-applied portal redirect is not ledgered -/

/-- C6 (counterexample): running `grantClientAccess` then
`revokeClientAccess` for session 1 from the empty database leaves the whole
ledger RETRACTED — 16 rows, none APPLIED — so the promised "pre-grant
contents plus exactly one new APPLIED PORTAL_REDIRECT entry" does not hold
(the redirect commands are executed but never inserted into
`firewall_rules`); `validate` does return NO_BINDING. -/
theorem roundTripLeavesNoLedgeredPortalRedirect :
    roundTripRun.2.1.rules.length = 16 ∧
    roundTripRun.2.1.rules.filter (fun r => r.isActive) = [] ∧
    (validateBinding roundTripRun.2.1 macX ipA 0).1 = ValidateResult.noBinding := by decide

/-! ### C9 — the cleanup cycle ignores the configured grace period -/

/-- C9 (counterexample): one reconciliation cycle at 1 ms past session 1's
expiry revokes the session (its id is in the cycle's revocation list and its
rules are retracted) although its expiry is not earlier than
`now - graceperiodMs` — the claim's grace-period condition is false at this
input, so the cycle does not revoke "exactly" the claimed set. -/
theorem cleanupRevokesWithinGracePeriod :
    cleanupRun.1 = [(1, true)] ∧
    (activeRulesFor cleanupRun.2 1).length = 0 ∧
    firewallCleanupConfig.graceperiodMs = 5000 ∧
    ¬ (14400000 < 14400001 - firewallCleanupConfig.graceperiodMs) := by decide

/-! ### C10 — the three MAC normalizers disagree -/

/-- C10 (counterexample): on the input `"AA-BB"` the auth service returns
`"aa:bb"`, the binding service returns `"aa-bb"` and the shared helper
returns `null`; on `null` the auth service returns the default MAC while the
binding service returns `null`.  The three normalizers are therefore not
equal as functions. -/
theorem normalizeMacDisagree :
    bindingNormalizeMac (some "AA-BB") ≠ some (normalizeMacAddress (some "AA-BB")) ∧
    helpersNormalizeMac (some "AA-BB") ≠ bindingNormalizeMac (some "AA-BB") ∧
    bindingNormalizeMac none ≠ some (normalizeMacAddress none) := by decide

theorem chunkPairs_ne_nil_of_two_le {l : List Char} (h : 2 ≤ l.length) :
    chunkPairs l ≠ [] := by
  cases l with
  | nil => simp at h
  | cons a t =>
    cases t with
    | nil => simp at h
    | cons b r => simp [chunkPairs]

theorem normalizeMacAddress_of_ne (m : String) (h0 : ¬ m = "")
    (hne : chunkPairs (jsToLower (jsStripSeps m)).data ≠ []) :
    normalizeMacAddress (some m) = joinColon (chunkPairs (jsToLower (jsStripSeps m)).data) := by
  simp only [normalizeMacAddress]
  rw [if_neg h0]

/-- C10 (amended): the three normalizers agree exactly on the inputs the
system actually feeds them — a non-empty string whose separator-stripped
lowercase form has exactly 12 characters.  On such inputs every normalizer
returns the colon-separated lowercase form; they differ on `null` and on
wrong-length inputs, as the counterexample shows. -/
theorem normalizeMacAgreeOnCanonical (m : String) (h0 : ¬ m = "")
    (h12 : (jsToLower (jsStripSeps m)).length = 12) :
    bindingNormalizeMac (some m) = some (normalizeMacAddress (some m)) ∧
    helpersNormalizeMac (some m) = some (normalizeMacAddress (some m)) := by
  have hlen : (jsToLower (jsStripSeps m)).data.length = 12 := h12
  have hne : chunkPairs (jsToLower (jsStripSeps m)).data ≠ [] :=
    chunkPairs_ne_nil_of_two_le (by omega)
  have hnorm := normalizeMacAddress_of_ne m h0 hne
  constructor
  · simp only [bindingNormalizeMac, bindingNormCore]
    rw [if_neg h0, hnorm]
    simp [h12]
  · simp only [helpersNormalizeMac]
    rw [if_neg h0, hnorm]
    simp [h12]

/-- C10 witness: the amended agreement at a canonical MAC string. -/
theorem normalizeMacAgreeOnCanonical_witness :
    bindingNormalizeMac (some "AA:BB:CC:DD:EE:0F") =
      some (normalizeMacAddress (some "AA:BB:CC:DD:EE:0F")) ∧
    helpersNormalizeMac (some "AA:BB:CC:DD:EE:0F") =
      some (normalizeMacAddress (some "AA:BB:CC:DD:EE:0F")) :=
  normalizeMacAgreeOnCanonical "AA:BB:CC:DD:EE:0F" (by decide) (by decide)

theorem pairedExecThenInsert_applyAndStore (env : ExecEnv) (b a m i : String)
    (s : Nat) (cmds : List String) (db : DB) :
    pairedExecThenInsert (applyAndStore env b a m i s cmds db).2.2 = true := by
  induction cmds generalizing db with
  | nil => rfl
  | cons c rest ih => simp [applyAndStore, pairedExecThenInsert, ih]

/-- C5 (amended): the ledger discipline of the source is write-behind, not
write-ahead: in both `applyAuthenticatedRules` and `applyClientIsolation`,
each enforcer execution is immediately followed by the `firewall_rules`
insert for that same command — the insert never precedes the execution. -/
theorem applyRulesWriteBehind (env : ExecEnv) (db : DB) (mac ip : String) (sid : Nat) :
    pairedExecThenInsert (applyAuthenticatedRules env db mac ip sid).2.2 = true ∧
    pairedExecThenInsert (applyClientIsolation env db mac ip sid).2.2 = true :=
  ⟨pairedExecThenInsert_applyAndStore env "iptables" "ALLOW" mac ip sid
      (authenticatedRuleCommands mac ip) db,
   pairedExecThenInsert_applyAndStore env "ebtables" "ISOLATION" mac ip sid
      (isolationRuleCommands mac ip) db⟩

theorem createBinding_success (db : DB) (m i : String) (s : Nat) (e : Option Nat) :
    (createBinding db m i s e).1.success = true := rfl

theorem retireMacConflict_sessions (db : DB) (nm i : String) :
    (retireMacConflict db nm i).sessions = db.sessions := by
  unfold retireMacConflict
  split <;> simp

theorem retireMacConflict_rules (db : DB) (nm i : String) :
    (retireMacConflict db nm i).rules = db.rules := by
  unfold retireMacConflict
  split <;> simp

theorem retireIpConflict_sessions (db : DB) (nm i : String) :
    (retireIpConflict db nm i).sessions = db.sessions := by
  unfold retireIpConflict
  split <;> simp

theorem retireIpConflict_rules (db : DB) (nm i : String) :
    (retireIpConflict db nm i).rules = db.rules := by
  unfold retireIpConflict
  split <;> simp

theorem createBinding_sessions (db : DB) (m i : String) (s : Nat) (e : Option Nat) :
    (createBinding db m i s e).2.sessions = db.sessions := by
  show (insertOrReplaceBinding _ _ _ _ _).1.sessions = _
  rw [insertOrReplaceBinding_sessions, retireIpConflict_sessions, retireMacConflict_sessions]

theorem createBinding_rules (db : DB) (m i : String) (s : Nat) (e : Option Nat) :
    (createBinding db m i s e).2.rules = db.rules := by
  show (insertOrReplaceBinding _ _ _ _ _).1.rules = _
  rw [insertOrReplaceBinding_rules, retireIpConflict_rules, retireMacConflict_rules]

theorem all_id_map (f : α → Bool) (l : List α) : (l.map f).all id = l.all f := by
  induction l with
  | nil => rfl
  | cons a t ih => simp [List.all_cons, ih]

theorem execList_oks (env : ExecEnv) (b : String) (cmds : List String) :
    (execList env b cmds).1 = cmds.map (fun c => execOutcome env (fullCmd b c)) := by
  induction cmds with
  | nil => rfl
  | cons c rest ih => simp [execList, ih]

theorem applyAndStore_oks (env : ExecEnv) (b a m i : String) (s : Nat)
    (cmds : List String) (db : DB) :
    (applyAndStore env b a m i s cmds db).1 =
      cmds.map (fun c => execOutcome env (fullCmd b c)) := by
  induction cmds generalizing db with
  | nil => rfl
  | cons c rest ih =>
    simpa [applyAndStore] using ih (storeRule db b a c m i s env.simulationMode)

theorem applyAuthenticatedRules_state (env : ExecEnv) (db : DB) (m i : String) (s : Nat) :
    (applyAuthenticatedRules env db m i s).2.1 =
      (applyAndStore env "iptables" "ALLOW" m i s (authenticatedRuleCommands m i) db).2.1 := rfl

theorem applyClientIsolation_state (env : ExecEnv) (db : DB) (m i : String) (s : Nat) :
    (applyClientIsolation env db m i s).2.1 =
      (applyAndStore env "ebtables" "ISOLATION" m i s (isolationRuleCommands m i) db).2.1 := rfl

theorem applyAuthenticatedRules_success (env : ExecEnv) (db : DB) (m i : String) (s : Nat) :
    (applyAuthenticatedRules env db m i s).1 =
      (authenticatedRuleCommands m i).all (fun c => execOutcome env (fullCmd "iptables" c)) := by
  show (applyAndStore env "iptables" "ALLOW" m i s (authenticatedRuleCommands m i) db).1.all id = _
  rw [applyAndStore_oks, all_id_map]

theorem applyClientIsolation_success (env : ExecEnv) (db : DB) (m i : String) (s : Nat) :
    (applyClientIsolation env db m i s).1 =
      (isolationRuleCommands m i).all (fun c => execOutcome env (fullCmd "ebtables" c)) := by
  show (applyAndStore env "ebtables" "ISOLATION" m i s (isolationRuleCommands m i) db).1.all id = _
  rw [applyAndStore_oks, all_id_map]

theorem removePortalRedirect_success (env : ExecEnv) (m : String) :
    (removePortalRedirect env m).1 =
      (generatePortalRedirectRule m).removeCommands.all (fun c => execOutcome env (fullCmd "iptables" c)) := by
  show (execList env "iptables" (generatePortalRedirectRule m).removeCommands).1.all id = _
  rw [execList_oks, all_id_map]

theorem applyPortalRedirect_success (env : ExecEnv) (m : String) :
    (applyPortalRedirect env m).1 =
      (generatePortalRedirectRule m).commands.all (fun c => execOutcome env (fullCmd "iptables" c)) := by
  show (execList env "iptables" (generatePortalRedirectRule m).commands).1.all id = _
  rw [execList_oks, all_id_map]

theorem grantClientAccess_state (env : ExecEnv) (db : DB) (sid : Nat)
    (mac ip : String) (exp : Option Nat) :
    (grantClientAccess env db sid mac ip exp).2.1 =
      appendEvent (applyClientIsolation env
        (applyAuthenticatedRules env (createBinding db mac ip sid exp).2 mac ip sid).2.1
        mac ip sid).2.1 accessGrantedEvent := rfl

theorem grantClientAccess_success (env : ExecEnv) (db : DB) (sid : Nat)
    (mac ip : String) (exp : Option Nat) :
    (grantClientAccess env db sid mac ip exp).1.success =
      ((createBinding db mac ip sid exp).1.success && (removePortalRedirect env mac).1 &&
        (applyAuthenticatedRules env (createBinding db mac ip sid exp).2 mac ip sid).1 &&
        (applyClientIsolation env
          (applyAuthenticatedRules env (createBinding db mac ip sid exp).2 mac ip sid).2.1
          mac ip sid).1) := rfl

/-- C4 (amended): when a rule-application step reports failure,
`grantClientAccess` reports failure in its result but initiates no
compensating revoke: the session table is never touched by a grant, the
returned `success` flag is exactly the conjunction of the enforcer outcomes
of all executed commands, and every ledger row written during the grant is
left APPLIED regardless of the outcomes. -/
theorem grantClientAccessFailureBehavior (env : ExecEnv) (db : DB) (sid : Nat)
    (mac ip : String) (exp : Option Nat) :
    (grantClientAccess env db sid mac ip exp).2.1.sessions = db.sessions ∧
    (grantClientAccess env db sid mac ip exp).1.success =
      allCommandsOk env (grantExecCommands mac ip) ∧
    ∃ new, (grantClientAccess env db sid mac ip exp).2.1.rules = db.rules ++ new ∧
      ∀ r ∈ new, r.sessionId = sid ∧ r.isActive = true := by
  refine ⟨?_, ?_, ?_⟩
  · rw [grantClientAccess_state, appendEvent_sessions, applyClientIsolation_state,
      applyAndStore_sessions, applyAuthenticatedRules_state, applyAndStore_sessions,
      createBinding_sessions]
  · rw [grantClientAccess_success, createBinding_success, removePortalRedirect_success,
      applyAuthenticatedRules_success, applyClientIsolation_success]
    unfold allCommandsOk grantExecCommands
    simp only [List.all_append, List.all_map, Function.comp_def, Bool.true_and, Bool.and_assoc]
  · obtain ⟨n1, hn1, ha1⟩ := applyAndStore_rules env "iptables" "ALLOW" mac ip sid
      (authenticatedRuleCommands mac ip) (createBinding db mac ip sid exp).2
    obtain ⟨n2, hn2, ha2⟩ := applyAndStore_rules env "ebtables" "ISOLATION" mac ip sid
      (isolationRuleCommands mac ip)
      (applyAuthenticatedRules env (createBinding db mac ip sid exp).2 mac ip sid).2.1
    refine ⟨n1 ++ n2, ?_, ?_⟩
    · rw [grantClientAccess_state, appendEvent_rules, applyClientIsolation_state, hn2,
        applyAuthenticatedRules_state, hn1, createBinding_rules, List.append_assoc]
    · intro r hr
      rw [List.mem_append] at hr
      rcases hr with hr | hr
      · exact ha1 r hr
      · exact ha2 r hr

theorem find?_eq_some_of_unique {α : Type} {p : α → Bool} {l : List α} {b : α}
    (hb : b ∈ l) (hpb : p b = true)
    (huniq : ∀ x ∈ l, p x = true → x = b) : l.find? p = some b := by
  induction l with
  | nil => cases hb
  | cons a t ih =>
    by_cases hpa : p a = true
    · have hab : a = b := huniq a (List.mem_cons_self a t) hpa
      subst hab
      exact List.find?_cons_of_pos t hpa
    · rw [List.mem_cons] at hb
      rcases hb with rfl | hb
      · exact absurd hpb hpa
      · rw [List.find?_cons_of_neg t (by simpa using hpa)]
        exact ih hb (fun x hx hpx => huniq x (List.mem_cons_of_mem a hx) hpx)

theorem mem_of_retire_active {db : DB} {bid : Nat} {b : BindingRow}
    (hb : b ∈ (retireBindingById db bid).bindings) (hact : b.isActive = true) :
    b ∈ db.bindings ∧ b.id ≠ bid := by
  unfold retireBindingById at hb
  simp only [List.mem_map] at hb
  obtain ⟨b0, hb0, heq⟩ := hb
  by_cases h : (b0.id == bid) = true
  · rw [if_pos h] at heq
    subst heq
    simp at hact
  · rw [if_neg h] at heq
    subst heq
    exact ⟨hb0, by simpa using h⟩

theorem retireMacConflict_active_mem {db : DB} {nm i : String} {b : BindingRow}
    (hb : b ∈ (retireMacConflict db nm i).bindings) (hact : b.isActive = true) :
    b ∈ db.bindings := by
  unfold retireMacConflict at hb
  split at hb
  · exact (mem_of_retire_active hb hact).1
  · exact hb

theorem retireIpConflict_active_mem {db : DB} {nm i : String} {b : BindingRow}
    (hb : b ∈ (retireIpConflict db nm i).bindings) (hact : b.isActive = true) :
    b ∈ db.bindings := by
  unfold retireIpConflict at hb
  split at hb
  · exact (mem_of_retire_active hb hact).1
  · exact hb

theorem retireMacConflict_kills {db : DB} {nm i : String}
    (hB1 : atMostOneActivePerMac db.bindings) {b : BindingRow}
    (hb : b ∈ (retireMacConflict db nm i).bindings) (hact : b.isActive = true)
    (hmac : b.mac = nm) (hip : b.ip ≠ i) : False := by
  unfold retireMacConflict at hb
  split at hb
  next x hx =>
    obtain ⟨hbmem, hbid⟩ := mem_of_retire_active hb hact
    have hxmem : x ∈ db.bindings := by
      simpa using List.mem_of_find?_eq_some hx
    have hpx := List.find?_some hx
    simp only [Bool.and_eq_true, beq_iff_eq, bne_iff_ne] at hpx
    have hbx : b = x := hB1 b hbmem x hxmem hact hpx.1.2 (by rw [hmac, hpx.1.1])
    exact hbid (by rw [hbx])
  next hx =>
    have := List.find?_eq_none.mp hx b hb
    simp only [Bool.and_eq_true, beq_iff_eq, bne_iff_ne, not_and] at this
    exact this ⟨hmac, hact⟩ hip

theorem atMostOneActivePerIp_retireMacConflict {db : DB} {nm i : String}
    (hB2 : atMostOneActivePerIp db.bindings) :
    atMostOneActivePerIp (retireMacConflict db nm i).bindings := by
  intro b1 h1 b2 h2 ha1 ha2 hip
  exact hB2 b1 (retireMacConflict_active_mem h1 ha1) b2
    (retireMacConflict_active_mem h2 ha2) ha1 ha2 hip

theorem retireIpConflict_kills {db : DB} {nm i : String}
    (hB2 : atMostOneActivePerIp db.bindings) {b : BindingRow}
    (hb : b ∈ (retireIpConflict db nm i).bindings) (hact : b.isActive = true)
    (hip : b.ip = i) (hmac : b.mac ≠ nm) : False := by
  unfold retireIpConflict at hb
  split at hb
  next x hx =>
    obtain ⟨hbmem, hbid⟩ := mem_of_retire_active hb hact
    have hxmem : x ∈ db.bindings := by
      simpa using List.mem_of_find?_eq_some hx
    have hpx := List.find?_some hx
    simp only [Bool.and_eq_true, beq_iff_eq, bne_iff_ne] at hpx
    have hbx : b = x := hB2 b hbmem x hxmem hact hpx.1.2 (by rw [hip, hpx.1.1])
    exact hbid (by rw [hbx])
  next hx =>
    have := List.find?_eq_none.mp hx b hb
    simp only [Bool.and_eq_true, beq_iff_eq, bne_iff_ne, not_and] at this
    exact this ⟨hip, hact⟩ hmac

theorem retireMacConflict_nextBindingId (db : DB) (nm i : String) :
    (retireMacConflict db nm i).nextBindingId = db.nextBindingId := by
  unfold retireMacConflict
  split <;> simp

theorem retireIpConflict_nextBindingId (db : DB) (nm i : String) :
    (retireIpConflict db nm i).nextBindingId = db.nextBindingId := by
  unfold retireIpConflict
  split <;> simp

theorem mem_insertOrReplace {db : DB} {m i : String} {s : Nat} {e : Option Nat}
    {b : BindingRow} (hb : b ∈ (insertOrReplaceBinding db m i s e).1.bindings) :
    b = ⟨db.nextBindingId, m, i, s, e, true⟩ ∨
      (b ∈ db.bindings ∧ ¬(b.mac = m ∧ b.ip = i)) := by
  unfold insertOrReplaceBinding at hb
  simp only [List.mem_append, List.mem_filter, List.mem_singleton] at hb
  rcases hb with ⟨hmem, hcond⟩ | hb
  · right
    refine ⟨hmem, ?_⟩
    intro hcontra
    simp [hcontra.1, hcontra.2] at hcond
  · left; exact hb

theorem createBinding_bindings (db : DB) (mac i : String) (sid : Nat) (e : Option Nat) :
    (createBinding db mac i sid e).2.bindings =
      (insertOrReplaceBinding
        (retireIpConflict (retireMacConflict db (bindingNormCore mac) i) (bindingNormCore mac) i)
        (bindingNormCore mac) i sid e).1.bindings := rfl

theorem createBinding_active_mac {db : DB} {mac i : String} {sid : Nat} {e : Option Nat}
    (hB1 : atMostOneActivePerMac db.bindings) {b : BindingRow}
    (hb : b ∈ (createBinding db mac i sid e).2.bindings) (hact : b.isActive = true)
    (hmac : b.mac = bindingNormCore mac) :
    b = ⟨db.nextBindingId, bindingNormCore mac, i, sid, e, true⟩ := by
  rw [createBinding_bindings] at hb
  rcases mem_insertOrReplace hb with hnew | ⟨hmem, hcond⟩
  · rw [retireIpConflict_nextBindingId, retireMacConflict_nextBindingId] at hnew
    exact hnew
  · exfalso
    have hip : b.ip ≠ i := fun h => hcond ⟨hmac, h⟩
    have hmem1 : b ∈ (retireMacConflict db (bindingNormCore mac) i).bindings :=
      retireIpConflict_active_mem hmem hact
    exact retireMacConflict_kills hB1 hmem1 hact hmac hip

theorem createBinding_active_ip {db : DB} {mac i : String} {sid : Nat} {e : Option Nat}
    (hB2 : atMostOneActivePerIp db.bindings) {b : BindingRow}
    (hb : b ∈ (createBinding db mac i sid e).2.bindings) (hact : b.isActive = true)
    (hip : b.ip = i) :
    b = ⟨db.nextBindingId, bindingNormCore mac, i, sid, e, true⟩ := by
  rw [createBinding_bindings] at hb
  rcases mem_insertOrReplace hb with hnew | ⟨hmem, hcond⟩
  · rw [retireIpConflict_nextBindingId, retireMacConflict_nextBindingId] at hnew
    exact hnew
  · exfalso
    have hmac : b.mac ≠ bindingNormCore mac := fun h => hcond ⟨h, hip⟩
    exact retireIpConflict_kills (atMostOneActivePerIp_retireMacConflict hB2) hmem hact hip hmac

theorem createBinding_active_mem {db : DB} {mac i : String} {sid : Nat} {e : Option Nat}
    {b : BindingRow} (hb : b ∈ (createBinding db mac i sid e).2.bindings)
    (hact : b.isActive = true) :
    b = ⟨db.nextBindingId, bindingNormCore mac, i, sid, e, true⟩ ∨ b ∈ db.bindings := by
  rw [createBinding_bindings] at hb
  rcases mem_insertOrReplace hb with hnew | ⟨hmem, _⟩
  · rw [retireIpConflict_nextBindingId, retireMacConflict_nextBindingId] at hnew
    exact Or.inl hnew
  · exact Or.inr (retireMacConflict_active_mem (retireIpConflict_active_mem hmem hact) hact)

/-- C3 (amended): the binding-service path does preserve both uniqueness
properties — whenever the pre-state has at most one ACTIVE binding per MAC
and per IP, the state after `createBinding` does too.  The bare
`INSERT OR REPLACE` of the auth service's `createSession` does not (it only
enforces the `UNIQUE(mac_address, ip_address)` pair constraint), as the
counterexample shows. -/
theorem createBinding_preservesUniqueness (db : DB) (mac i : String) (sid : Nat)
    (e : Option Nat) (hB1 : atMostOneActivePerMac db.bindings)
    (hB2 : atMostOneActivePerIp db.bindings) :
    atMostOneActivePerMac (createBinding db mac i sid e).2.bindings ∧
    atMostOneActivePerIp (createBinding db mac i sid e).2.bindings := by
  constructor
  · intro b1 h1 b2 h2 ha1 ha2 hmac
    by_cases hm : b1.mac = bindingNormCore mac
    · rw [createBinding_active_mac hB1 h1 ha1 hm,
        createBinding_active_mac hB1 h2 ha2 (by rw [← hmac, hm])]
    · rcases createBinding_active_mem h1 ha1 with hnew | hmem1
      · exact absurd (by rw [hnew]) hm
      · rcases createBinding_active_mem h2 ha2 with hnew | hmem2
        · exact absurd (by rw [hmac, hnew]) hm
        · exact hB1 b1 hmem1 b2 hmem2 ha1 ha2 hmac
  · intro b1 h1 b2 h2 ha1 ha2 hip
    by_cases hi : b1.ip = i
    · rw [createBinding_active_ip hB2 h1 ha1 hi,
        createBinding_active_ip hB2 h2 ha2 (by rw [← hip, hi])]
    · rcases createBinding_active_mem h1 ha1 with hnew | hmem1
      · exact absurd (by rw [hnew]) hi
      · rcases createBinding_active_mem h2 ha2 with hnew | hmem2
        · exact absurd (by rw [hip, hnew]) hi
        · exact hB2 b1 hmem1 b2 hmem2 ha1 ha2 hip

/-- C3 witness: the amended preservation at a concrete conflicted state (an
active binding for the same MAC on another IP). -/
theorem createBinding_preservesUniqueness_witness :
    atMostOneActivePerMac (createBinding dbOneBinding macX ipB 2 none).2.bindings ∧
    atMostOneActivePerIp (createBinding dbOneBinding macX ipB 2 none).2.bindings :=
  createBinding_preservesUniqueness dbOneBinding macX ipB 2 none
    (by
      intro b1 h1 b2 h2 _ _ _
      rw [show dbOneBinding.bindings = [⟨1, macX, ipA, 1, none, true⟩] from rfl,
        List.mem_singleton] at h1 h2
      rw [h1, h2])
    (by
      intro b1 h1 b2 h2 _ _ _
      rw [show dbOneBinding.bindings = [⟨1, macX, ipA, 1, none, true⟩] from rfl,
        List.mem_singleton] at h1 h2
      rw [h1, h2])

/-! ### C8 — validateBinding outcome characterization -/

theorem validateBinding_of_find_none (db : DB) (mac ip : String) (now : Nat)
    (hfind : db.bindings.find? (fun c => c.mac == bindingNormCore mac && c.isActive) = none) :
    validateBinding db mac ip now = (ValidateResult.noBinding, []) := by
  simp only [validateBinding]
  rw [hfind]

theorem validateBinding_of_find_some (db : DB) (mac ip : String) (now : Nat) (b : BindingRow)
    (hfind : db.bindings.find? (fun c => c.mac == bindingNormCore mac && c.isActive) = some b) :
    validateBinding db mac ip now =
      (if (b.ip != ip) = true then (ValidateResult.ipMismatch b.ip, [bindingViolationEvent])
       else match b.expiresAt with
            | some e => if e < now then (ValidateResult.expired, ([] : List EventRow))
                        else (ValidateResult.ok, [])
            | none => (ValidateResult.ok, [])) := by
  simp only [validateBinding]
  rw [hfind]

/-- C8: `validateBinding` is a read-only classification.  Under the per-MAC
uniqueness invariant: it returns NO_BINDING exactly when no ACTIVE binding
exists for the normalized MAC; when the ACTIVE binding for the MAC exists,
it returns IP_MISMATCH carrying the bound IP (emitting the
BINDING_VIOLATION warning) when the argument IP differs, EXPIRED when the
IP matches but the binding's expiry is past, and ok otherwise. -/
theorem validateBinding_spec (db : DB) (mac ip : String) (now : Nat)
    (hB1 : atMostOneActivePerMac db.bindings) :
    ((∀ b ∈ db.bindings, b.isActive = true → b.mac ≠ bindingNormCore mac) →
      (validateBinding db mac ip now).1 = ValidateResult.noBinding) ∧
    (∀ b ∈ db.bindings, b.isActive = true → b.mac = bindingNormCore mac →
      ((b.ip ≠ ip → (validateBinding db mac ip now).1 = ValidateResult.ipMismatch b.ip ∧
          (validateBinding db mac ip now).2 = [bindingViolationEvent]) ∧
       (b.ip = ip → bindingExpiredAt b now = true →
          (validateBinding db mac ip now).1 = ValidateResult.expired) ∧
       (b.ip = ip → bindingExpiredAt b now = false →
          (validateBinding db mac ip now).1 = ValidateResult.ok))) := by
  constructor
  · intro h
    have hfind : db.bindings.find? (fun b => b.mac == bindingNormCore mac && b.isActive) = none := by
      rw [List.find?_eq_none]
      intro x hx hcontra
      simp only [Bool.and_eq_true, beq_iff_eq] at hcontra
      exact h x hx hcontra.2 hcontra.1
    rw [validateBinding_of_find_none db mac ip now hfind]
  · intro b hb hact hmac
    have hfind : db.bindings.find? (fun b => b.mac == bindingNormCore mac && b.isActive) = some b := by
      refine find?_eq_some_of_unique hb (by simp [hmac, hact]) ?_
      intro x hx hpx
      simp only [Bool.and_eq_true, beq_iff_eq] at hpx
      exact hB1 x hx b hb hpx.2 hact (by rw [hpx.1, hmac])
    have heq := validateBinding_of_find_some db mac ip now b hfind
    refine ⟨?_, ?_, ?_⟩
    · intro hip
      rw [heq, if_pos (by simpa using hip)]
      exact ⟨rfl, rfl⟩
    · intro hip hexp
      rw [heq, if_neg (by simp [hip])]
      cases he : b.expiresAt with
      | none =>
        unfold bindingExpiredAt at hexp
        rw [he] at hexp
        cases hexp
      | some t =>
        unfold bindingExpiredAt at hexp
        rw [he] at hexp
        simp only [decide_eq_true_eq] at hexp
        simp [hexp]
    · intro hip hexp
      rw [heq, if_neg (by simp [hip])]
      cases he : b.expiresAt with
      | none => rfl
      | some t =>
        unfold bindingExpiredAt at hexp
        rw [he] at hexp
        simp only [decide_eq_false_iff_not] at hexp
        simp [hexp]

/-- C8 witness: the characterization applied at a concrete one-binding
state, exercising the IP_MISMATCH branch. -/
theorem validateBinding_spec_witness :
    (validateBinding dbOneBinding macX ipB 0).1 = ValidateResult.ipMismatch ipA ∧
    (validateBinding dbOneBinding macX ipB 0).2 = [bindingViolationEvent] :=
  ((validateBinding_spec dbOneBinding macX ipB 0
      (by
        intro b1 h1 b2 h2 _ _ _
        rw [show dbOneBinding.bindings = [⟨1, macX, ipA, 1, none, true⟩] from rfl,
          List.mem_singleton] at h1 h2
        rw [h1, h2])).2
    ⟨1, macX, ipA, 1, none, true⟩ (by decide) rfl (by decide)).1 (by decide)

/-! ### C7 — createBinding conflict resolution -/

theorem retire_makes_inactive {db : DB} {bid : Nat} {b : BindingRow}
    (hb : b ∈ (retireBindingById db bid).bindings) (hid : b.id = bid) :
    b.isActive = false := by
  unfold retireBindingById at hb
  simp only [List.mem_map] at hb
  obtain ⟨b0, hb0, heq⟩ := hb
  by_cases h : (b0.id == bid) = true
  · rw [if_pos h] at heq
    rw [← heq]
  · rw [if_neg h] at heq
    subst heq
    exact absurd (by simpa using hid) h

theorem retire_preserves_inactive_id {db : DB} {bid i0 : Nat}
    (h : ∀ c ∈ db.bindings, c.id = i0 → c.isActive = false) :
    ∀ c ∈ (retireBindingById db bid).bindings, c.id = i0 → c.isActive = false := by
  intro c hc hid
  unfold retireBindingById at hc
  simp only [List.mem_map] at hc
  obtain ⟨c0, hc0, heq⟩ := hc
  by_cases hcase : (c0.id == bid) = true
  · rw [if_pos hcase] at heq
    rw [← heq]
  · rw [if_neg hcase] at heq
    subst heq
    exact h c0 hc0 hid

theorem retireIpConflict_preserves_inactive_id {db : DB} (nm i : String) {i0 : Nat}
    (h : ∀ c ∈ db.bindings, c.id = i0 → c.isActive = false) :
    ∀ c ∈ (retireIpConflict db nm i).bindings, c.id = i0 → c.isActive = false := by
  unfold retireIpConflict
  split
  · exact retire_preserves_inactive_id (by simpa using h)
  · exact h

theorem retireIpConflict_events_mono {db : DB} {nm i : String} {ev : EventRow}
    (h : ev ∈ db.events) : ev ∈ (retireIpConflict db nm i).events := by
  unfold retireIpConflict
  split
  · simp only [retireBindingById_events, appendEvent_events, List.mem_append]
    exact Or.inl h
  · exact h

theorem createBinding_events (db : DB) (mac i : String) (sid : Nat) (e : Option Nat) :
    (createBinding db mac i sid e).2.events =
      (retireIpConflict (retireMacConflict db (bindingNormCore mac) i)
        (bindingNormCore mac) i).events := rfl

theorem createBinding_bindingId (db : DB) (mac i : String) (sid : Nat) (e : Option Nat) :
    (createBinding db mac i sid e).1.bindingId = db.nextBindingId := by
  show (retireIpConflict (retireMacConflict db (bindingNormCore mac) i)
      (bindingNormCore mac) i).nextBindingId = db.nextBindingId
  rw [retireIpConflict_nextBindingId, retireMacConflict_nextBindingId]

theorem retireMacConflict_mem_preserved {db : DB} {nm i : String} {b : BindingRow}
    (hIds : bindingIdsInjective db) (hb : b ∈ db.bindings) (hmac : b.mac ≠ nm) :
    b ∈ (retireMacConflict db nm i).bindings := by
  unfold retireMacConflict
  split
  next x hx =>
    have hxmem : x ∈ db.bindings := by simpa using List.mem_of_find?_eq_some hx
    have hpx := List.find?_some hx
    simp only [Bool.and_eq_true, beq_iff_eq, bne_iff_ne] at hpx
    have hne : ¬(b.id == x.id) = true := by
      simp only [beq_iff_eq]
      intro hid
      exact hmac (by rw [hIds b hb x hxmem hid, hpx.1.1])
    unfold retireBindingById
    simp only [appendEvent_bindings, List.mem_map]
    exact ⟨b, hb, by rw [if_neg hne]⟩
  next => exact hb

/-- C7: conflict resolution of `createBinding` under the natural table
invariants (B1, B2, injective and fresh primary keys): the call succeeds and
returns the fresh row id; the new `(MAC, IP)` binding is installed ACTIVE
under that id; an existing ACTIVE binding with the same normalized MAC and a
different IP is retired (every surviving row under its id is inactive) with
a `MAC_IP_CHANGE` (MAC-rebind) security event; an existing ACTIVE binding
with the same IP and a different MAC is retired with an `IP_CONFLICT`
security event. -/
theorem createBinding_conflictResolution (db : DB) (mac i : String) (sid : Nat)
    (e : Option Nat) (hB1 : atMostOneActivePerMac db.bindings)
    (hB2 : atMostOneActivePerIp db.bindings) (hIds : bindingIdsInjective db)
    (hFresh : bindingIdsFresh db) :
    (createBinding db mac i sid e).1.success = true ∧
    (createBinding db mac i sid e).1.bindingId = db.nextBindingId ∧
    (⟨db.nextBindingId, bindingNormCore mac, i, sid, e, true⟩ : BindingRow) ∈
      (createBinding db mac i sid e).2.bindings ∧
    (∀ b ∈ db.bindings, b.isActive = true → b.mac = bindingNormCore mac → b.ip ≠ i →
      macIpChangeEvent ∈ (createBinding db mac i sid e).2.events ∧
      ∀ b' ∈ (createBinding db mac i sid e).2.bindings, b'.id = b.id → b'.isActive = false) ∧
    (∀ b ∈ db.bindings, b.isActive = true → b.ip = i → b.mac ≠ bindingNormCore mac →
      ipConflictEvent ∈ (createBinding db mac i sid e).2.events ∧
      ∀ b' ∈ (createBinding db mac i sid e).2.bindings, b'.id = b.id → b'.isActive = false) := by
  refine ⟨rfl, createBinding_bindingId db mac i sid e, ?_, ?_, ?_⟩
  · rw [createBinding_bindings]
    unfold insertOrReplaceBinding
    simp only [List.mem_append, List.mem_singleton]
    right
    rw [retireIpConflict_nextBindingId, retireMacConflict_nextBindingId]
  · intro b hb hact hmac hip
    have hp1 : (fun c : BindingRow => c.mac == bindingNormCore mac && c.isActive &&
        c.ip != i) b = true := by simp [hmac, hact, hip]
    cases hx : db.bindings.find? (fun c => c.mac == bindingNormCore mac && c.isActive &&
        c.ip != i) with
    | none => exact absurd hp1 (List.find?_eq_none.mp hx b hb)
    | some x =>
      have hxmem : x ∈ db.bindings := by simpa using List.mem_of_find?_eq_some hx
      have hpx := List.find?_some hx
      simp only [Bool.and_eq_true, beq_iff_eq, bne_iff_ne] at hpx
      have hxb : x = b := hB1 x hxmem b hb hpx.1.2 hact (by rw [hpx.1.1, hmac])
      have hmc : retireMacConflict db (bindingNormCore mac) i =
          retireBindingById (appendEvent db macIpChangeEvent) b.id := by
        unfold retireMacConflict
        rw [hx, hxb]
      constructor
      · rw [createBinding_events]
        refine retireIpConflict_events_mono ?_
        rw [hmc]
        simp only [retireBindingById_events, appendEvent_events, List.mem_append,
          List.mem_singleton]
        exact Or.inr trivial
      · intro b' hb' hbid
        have hdead1 : ∀ c ∈ (retireMacConflict db (bindingNormCore mac) i).bindings,
            c.id = b.id → c.isActive = false := by
          rw [hmc]
          intro c hc hcid
          exact retire_makes_inactive hc hcid
        have hdead2 := retireIpConflict_preserves_inactive_id (bindingNormCore mac) i hdead1
        rw [createBinding_bindings] at hb'
        rcases mem_insertOrReplace hb' with hnew | ⟨hmem, _⟩
        · exfalso
          rw [hnew, retireIpConflict_nextBindingId, retireMacConflict_nextBindingId] at hbid
          exact absurd hbid (Nat.ne_of_gt (hFresh b hb))
        · exact hdead2 b' hmem hbid
  · intro b hb hact hip hmac
    have hb1 : b ∈ (retireMacConflict db (bindingNormCore mac) i).bindings :=
      retireMacConflict_mem_preserved hIds hb hmac
    have hp2 : (fun c : BindingRow => c.ip == i && c.isActive &&
        c.mac != bindingNormCore mac) b = true := by simp [hmac, hact, hip]
    cases hy : (retireMacConflict db (bindingNormCore mac) i).bindings.find?
        (fun c => c.ip == i && c.isActive && c.mac != bindingNormCore mac) with
    | none => exact absurd hp2 (List.find?_eq_none.mp hy b hb1)
    | some y =>
      have hymem : y ∈ (retireMacConflict db (bindingNormCore mac) i).bindings := by
        simpa using List.mem_of_find?_eq_some hy
      have hpy := List.find?_some hy
      simp only [Bool.and_eq_true, beq_iff_eq, bne_iff_ne] at hpy
      have hyb : y = b := atMostOneActivePerIp_retireMacConflict hB2 y hymem b hb1
        hpy.1.2 hact (by rw [hpy.1.1, hip])
      have hic : retireIpConflict (retireMacConflict db (bindingNormCore mac) i)
          (bindingNormCore mac) i =
          retireBindingById (appendEvent (retireMacConflict db (bindingNormCore mac) i)
            ipConflictEvent) b.id := by
        unfold retireIpConflict
        rw [hy, hyb]
      constructor
      · rw [createBinding_events, hic]
        simp only [retireBindingById_events, appendEvent_events, List.mem_append,
          List.mem_singleton]
        exact Or.inr trivial
      · intro b' hb' hbid
        have hdead2 : ∀ c ∈ (retireIpConflict (retireMacConflict db (bindingNormCore mac) i)
            (bindingNormCore mac) i).bindings, c.id = b.id → c.isActive = false := by
          rw [hic]
          intro c hc hcid
          exact retire_makes_inactive hc hcid
        rw [createBinding_bindings] at hb'
        rcases mem_insertOrReplace hb' with hnew | ⟨hmem, _⟩
        · exfalso
          rw [hnew, retireIpConflict_nextBindingId, retireMacConflict_nextBindingId] at hbid
          exact absurd hbid (Nat.ne_of_gt (hFresh b hb))
        · exact hdead2 b' hmem hbid

/-- C7 witness: the conflict resolution applied to the one-binding state,
rebinding `macX` from `ipA` to `ipB` (the MAC-rebind branch fires). -/
theorem createBinding_conflictResolution_witness :
    (createBinding dbOneBinding macX ipB 2 none).1.success = true ∧
    (createBinding dbOneBinding macX ipB 2 none).1.bindingId = dbOneBinding.nextBindingId ∧
    (⟨dbOneBinding.nextBindingId, bindingNormCore macX, ipB, 2, none, true⟩ : BindingRow) ∈
      (createBinding dbOneBinding macX ipB 2 none).2.bindings ∧
    (∀ b ∈ dbOneBinding.bindings, b.isActive = true → b.mac = bindingNormCore macX →
      b.ip ≠ ipB →
      macIpChangeEvent ∈ (createBinding dbOneBinding macX ipB 2 none).2.events ∧
      ∀ b' ∈ (createBinding dbOneBinding macX ipB 2 none).2.bindings, b'.id = b.id →
        b'.isActive = false) ∧
    (∀ b ∈ dbOneBinding.bindings, b.isActive = true → b.ip = ipB →
      b.mac ≠ bindingNormCore macX →
      ipConflictEvent ∈ (createBinding dbOneBinding macX ipB 2 none).2.events ∧
      ∀ b' ∈ (createBinding dbOneBinding macX ipB 2 none).2.bindings, b'.id = b.id →
        b'.isActive = false) :=
  createBinding_conflictResolution dbOneBinding macX ipB 2 none
    (by
      intro b1 h1 b2 h2 _ _ _
      rw [show dbOneBinding.bindings = [⟨1, macX, ipA, 1, none, true⟩] from rfl,
        List.mem_singleton] at h1 h2
      rw [h1, h2])
    (by
      intro b1 h1 b2 h2 _ _ _
      rw [show dbOneBinding.bindings = [⟨1, macX, ipA, 1, none, true⟩] from rfl,
        List.mem_singleton] at h1 h2
      rw [h1, h2])
    (by
      intro b1 h1 b2 h2 _
      rw [show dbOneBinding.bindings = [⟨1, macX, ipA, 1, none, true⟩] from rfl,
        List.mem_singleton] at h1 h2
      rw [h1, h2])
    (by
      intro b hb
      rw [show dbOneBinding.bindings = [⟨1, macX, ipA, 1, none, true⟩] from rfl,
        List.mem_singleton] at hb
      rw [hb]
      decide)

/-! ### C6 — grant followed by revoke restores the ledger -/

theorem grantClientAccess_bindings (env : ExecEnv) (db : DB) (sid : Nat)
    (mac ip : String) (exp : Option Nat) :
    (grantClientAccess env db sid mac ip exp).2.1.bindings =
      (createBinding db mac ip sid exp).2.bindings := by
  rw [grantClientAccess_state, appendEvent_bindings, applyClientIsolation_state,
    applyAndStore_bindings, applyAuthenticatedRules_state, applyAndStore_bindings]

theorem grantClientAccess_rules (env : ExecEnv) (db : DB) (sid : Nat)
    (mac ip : String) (exp : Option Nat) :
    ∃ new, (grantClientAccess env db sid mac ip exp).2.1.rules = db.rules ++ new ∧
      ∀ r ∈ new, r.sessionId = sid ∧ r.isActive = true := by
  obtain ⟨n1, hn1, ha1⟩ := applyAndStore_rules env "iptables" "ALLOW" mac ip sid
    (authenticatedRuleCommands mac ip) (createBinding db mac ip sid exp).2
  obtain ⟨n2, hn2, ha2⟩ := applyAndStore_rules env "ebtables" "ISOLATION" mac ip sid
    (isolationRuleCommands mac ip)
    (applyAuthenticatedRules env (createBinding db mac ip sid exp).2 mac ip sid).2.1
  refine ⟨n1 ++ n2, ?_, ?_⟩
  · rw [grantClientAccess_state, appendEvent_rules, applyClientIsolation_state, hn2,
      applyAuthenticatedRules_state, hn1, createBinding_rules, List.append_assoc]
  · intro r hr
    rw [List.mem_append] at hr
    rcases hr with hr | hr
    · exact ha1 r hr
    · exact ha2 r hr

theorem revokeClientAccess_state (env : ExecEnv) (db : DB) (sid : Nat) (mac ip : String) :
    (revokeClientAccess env db sid mac ip).2.1 =
      appendEvent (removeBindingBySession
        (markRulesRemoved (markRulesRemoved db sid none) sid (some "ebtables")) sid)
        accessRevokedEvent := rfl

theorem markRulesRemoved_rules (db : DB) (sid : Nat) (t : Option String) :
    (markRulesRemoved db sid t).rules = db.rules.map (markRemovedFn sid t) := rfl

theorem removeBindingBySession_bindings (db : DB) (sid : Nat) :
    (removeBindingBySession db sid).bindings = db.bindings.map (removeBindingFn sid) := rfl

theorem markRemovedFn_ne {sid : Nat} {t : Option String} {r : RuleRow}
    (h : r.sessionId ≠ sid) : markRemovedFn sid t r = r := by
  unfold markRemovedFn
  rw [if_neg]
  simp [h]

theorem markRemovedFn_none_active {sid : Nat} {r : RuleRow}
    (h1 : r.sessionId = sid) (h2 : r.isActive = true) :
    markRemovedFn sid none r = { r with isActive := false } := by
  unfold markRemovedFn
  rw [if_pos]
  simp [h1, h2]

theorem markRemovedFn_inactive {sid : Nat} {t : Option String} {r : RuleRow}
    (h : r.isActive = false) : markRemovedFn sid t r = r := by
  unfold markRemovedFn
  rw [if_neg]
  simp [h]

theorem filter_active_double_mark (rs new : List RuleRow) (sid : Nat)
    (hOld : ∀ r ∈ rs, r.sessionId ≠ sid)
    (hNew : ∀ r ∈ new, r.sessionId = sid ∧ r.isActive = true) :
    (((rs ++ new).map (markRemovedFn sid none)).map
        (markRemovedFn sid (some "ebtables"))).filter (fun r => r.isActive) =
      rs.filter (fun r => r.isActive) := by
  rw [List.map_append, List.map_append, List.filter_append]
  have hrs : (rs.map (markRemovedFn sid none)).map (markRemovedFn sid (some "ebtables")) = rs := by
    rw [List.map_map]
    have hcongr : rs.map (markRemovedFn sid (some "ebtables") ∘ markRemovedFn sid none) =
        rs.map id := by
      refine List.map_congr_left ?_
      intro r hr
      show markRemovedFn sid (some "ebtables") (markRemovedFn sid none r) = r
      rw [markRemovedFn_ne (hOld r hr), markRemovedFn_ne (hOld r hr)]
    rw [hcongr, List.map_id]
  have hdead : ((new.map (markRemovedFn sid none)).map
      (markRemovedFn sid (some "ebtables"))).filter (fun r => r.isActive) = [] := by
    rw [List.filter_eq_nil_iff]
    intro x hx
    rw [List.map_map] at hx
    obtain ⟨r, hr, hxr⟩ := List.mem_map.mp hx
    obtain ⟨hsid, hact⟩ := hNew r hr
    have hxval : x = { r with isActive := false } := by
      rw [← hxr]
      show markRemovedFn sid (some "ebtables") (markRemovedFn sid none r) = _
      rw [markRemovedFn_none_active hsid hact, markRemovedFn_inactive rfl]
    rw [hxval]
    simp
  rw [hrs, hdead, List.append_nil]

/-- C6 (amended): starting from a state whose bindings satisfy per-MAC
uniqueness and that holds no ledger row for the fresh session id, running
`grantClientAccess` followed by `revokeClientAccess` returns the set of
APPLIED ledger rows exactly to its pre-grant contents — the re-applied
portal redirect is executed against the enforcer but never recorded in
`firewall_rules` (so no new APPLIED PORTAL_REDIRECT entry exists, contrary
to the original claim) — and `validateBinding` on that MAC afterwards
returns NO_BINDING. -/
theorem grantRevokeRestoresLedger (env : ExecEnv) (db : DB) (sid : Nat)
    (mac ip : String) (exp : Option Nat) (ipq : String) (now : Nat)
    (hB1 : atMostOneActivePerMac db.bindings)
    (hNoRules : ∀ r ∈ db.rules, r.sessionId ≠ sid) :
    ((revokeClientAccess env (grantClientAccess env db sid mac ip exp).2.1
        sid mac ip).2.1.rules.filter (fun r => r.isActive)) =
      db.rules.filter (fun r => r.isActive) ∧
    (validateBinding (revokeClientAccess env (grantClientAccess env db sid mac ip exp).2.1
        sid mac ip).2.1 mac ipq now).1 = ValidateResult.noBinding := by
  obtain ⟨new, hnew, hprops⟩ := grantClientAccess_rules env db sid mac ip exp
  constructor
  · rw [revokeClientAccess_state, appendEvent_rules, removeBindingBySession_rules,
      markRulesRemoved_rules, markRulesRemoved_rules, hnew]
    exact filter_active_double_mark db.rules new sid hNoRules hprops
  · have hbind : (revokeClientAccess env (grantClientAccess env db sid mac ip exp).2.1
        sid mac ip).2.1.bindings =
        ((createBinding db mac ip sid exp).2.bindings).map (removeBindingFn sid) := by
      rw [revokeClientAccess_state, appendEvent_bindings, removeBindingBySession_bindings,
        markRulesRemoved_bindings, markRulesRemoved_bindings, grantClientAccess_bindings]
    have hfind : (revokeClientAccess env (grantClientAccess env db sid mac ip exp).2.1
        sid mac ip).2.1.bindings.find?
        (fun c => c.mac == bindingNormCore mac && c.isActive) = none := by
      rw [hbind, List.find?_eq_none]
      intro x hx hcontra
      simp only [Bool.and_eq_true, beq_iff_eq] at hcontra
      obtain ⟨b0, hb0, hxb⟩ := List.mem_map.mp hx
      by_cases hcond : (b0.sessionId == sid && b0.isActive) = true
      · rw [← hxb] at hcontra
        unfold removeBindingFn at hcontra
        rw [if_pos hcond] at hcontra
        simp at hcontra
      · rw [← hxb] at hcontra
        unfold removeBindingFn at hcontra
        rw [if_neg hcond] at hcontra
        have hb0new := createBinding_active_mac hB1 hb0 hcontra.2 hcontra.1
        rw [hb0new] at hcond
        simp at hcond
    rw [validateBinding_of_find_none _ mac ipq now hfind]

/-- C6 witness: the amended round trip from the empty database. -/
theorem grantRevokeRestoresLedger_witness :
    ((revokeClientAccess simEnv (grantClientAccess simEnv emptyDB 1 macX ipA none).2.1
        1 macX ipA).2.1.rules.filter (fun r => r.isActive)) =
      emptyDB.rules.filter (fun r => r.isActive) ∧
    (validateBinding (revokeClientAccess simEnv
        (grantClientAccess simEnv emptyDB 1 macX ipA none).2.1 1 macX ipA).2.1
        macX ipA 0).1 = ValidateResult.noBinding :=
  grantRevokeRestoresLedger simEnv emptyDB 1 macX ipA none ipA 0
    (by intro b1 h1; cases h1)
    (by intro r hr; cases hr)

/-! ### C9 — what one reconciliation cycle actually revokes -/

theorem revokeClientAccess_rules (env : ExecEnv) (db : DB) (sid : Nat) (mac ip : String) :
    (revokeClientAccess env db sid mac ip).2.1.rules =
      (db.rules.map (markRemovedFn sid none)).map (markRemovedFn sid (some "ebtables")) := by
  rw [revokeClientAccess_state, appendEvent_rules, removeBindingBySession_rules,
    markRulesRemoved_rules, markRulesRemoved_rules]

theorem revoke_rules_active {env : ExecEnv} {db : DB} {sid : Nat} {mac ip : String}
    {x : RuleRow} (hx : x ∈ (revokeClientAccess env db sid mac ip).2.1.rules)
    (hact : x.isActive = true) : x ∈ db.rules ∧ x.sessionId ≠ sid := by
  rw [revokeClientAccess_rules, List.map_map] at hx
  obtain ⟨r, hr, hxr⟩ := List.mem_map.mp hx
  by_cases h1 : r.sessionId = sid
  · exfalso
    by_cases h2 : r.isActive = true
    · have hxval : x = { r with isActive := false } := by
        rw [← hxr]
        show markRemovedFn sid (some "ebtables") (markRemovedFn sid none r) = _
        rw [markRemovedFn_none_active h1 h2, markRemovedFn_inactive rfl]
      rw [hxval] at hact
      simp at hact
    · have hr2 : r.isActive = false := by
        cases hb : r.isActive
        · rfl
        · exact absurd hb h2
      have hxval : x = r := by
        rw [← hxr]
        show markRemovedFn sid (some "ebtables") (markRemovedFn sid none r) = _
        rw [markRemovedFn_inactive hr2, markRemovedFn_inactive hr2]
      rw [hxval] at hact
      exact h2 hact
  · have hxval : x = r := by
      rw [← hxr]
      show markRemovedFn sid (some "ebtables") (markRemovedFn sid none r) = _
      rw [markRemovedFn_ne h1, markRemovedFn_ne h1]
    rw [hxval]
    exact ⟨hr, h1⟩

theorem revoke_kills (env : ExecEnv) (db : DB) (sid : Nat) (mac ip : String) :
    activeRulesFor (revokeClientAccess env db sid mac ip).2.1 sid = [] := by
  unfold activeRulesFor
  rw [List.filter_eq_nil_iff]
  intro x hx hcontra
  simp only [Bool.and_eq_true, beq_iff_eq] at hcontra
  exact (revoke_rules_active hx hcontra.2).2 hcontra.1

theorem revoke_preserves_dead {env : ExecEnv} {db : DB} {sid' : Nat} {mac ip : String}
    {sid : Nat} (h : activeRulesFor db sid = []) :
    activeRulesFor (revokeClientAccess env db sid' mac ip).2.1 sid = [] := by
  unfold activeRulesFor
  rw [List.filter_eq_nil_iff]
  intro x hx hcontra
  simp only [Bool.and_eq_true, beq_iff_eq] at hcontra
  have hmem : x ∈ activeRulesFor db sid := by
    unfold activeRulesFor
    rw [List.mem_filter]
    exact ⟨(revoke_rules_active hx hcontra.2).1, by simp [hcontra.1, hcontra.2]⟩
  rw [h] at hmem
  cases hmem

theorem activeRulesFor_cleanupBindings (db : DB) (now sid : Nat) :
    activeRulesFor (cleanupExpiredBindings db now) sid = activeRulesFor db sid := by
  unfold activeRulesFor
  rw [cleanupExpiredBindings_rules]

theorem revokeAllLoop_cons (env : ExecEnv) (s : SessionRow) (rest : List SessionRow)
    (db : DB) :
    (revokeAllLoop env (s :: rest) db).2 =
      (revokeAllLoop env rest (revokeClientAccess env db s.id s.mac s.ip).2.1).2 := rfl

theorem revokeAllLoop_ids (env : ExecEnv) (L : List SessionRow) (db : DB) :
    (revokeAllLoop env L db).1.map Prod.fst = L.map (fun s => s.id) := by
  induction L generalizing db with
  | nil => rfl
  | cons s rest ih => simp [revokeAllLoop, ih]

theorem revokeAllLoop_dead (env : ExecEnv) (L : List SessionRow) (db : DB) (sid : Nat)
    (h : activeRulesFor db sid = [] ∨ ∃ s ∈ L, s.id = sid) :
    activeRulesFor (revokeAllLoop env L db).2 sid = [] := by
  induction L generalizing db with
  | nil =>
    rcases h with h | ⟨s, hs, _⟩
    · exact h
    · cases hs
  | cons s rest ih =>
    rw [revokeAllLoop_cons]
    rcases h with h | ⟨s', hs', hid⟩
    · exact ih _ (Or.inl (revoke_preserves_dead h))
    · rw [List.mem_cons] at hs'
      rcases hs' with rfl | hs'
      · refine ih _ (Or.inl ?_)
        rw [← hid]
        exact revoke_kills env db s'.id s'.mac s'.ip
      · exact ih _ (Or.inr ⟨s', hs', hid⟩)

theorem cleanupExpiredSessions_state (env : ExecEnv) (db : DB) (now : Nat) :
    (cleanupExpiredSessions env db now).2 =
      cleanupExpiredBindings (revokeAllLoop env (expiredSessionsWithRules db now) db).2 now := rfl

/-- C9 (amended): one cycle of `cleanupExpiredSessions` revokes exactly the
sessions whose `expires_at` is before `now` (no grace period is applied,
although `graceperiodMs = 5000` is configured) and that still own an ACTIVE
`firewall_rules` row — the session's own `is_active` flag is not consulted.
After the cycle, no session whose expiry is past retains an APPLIED ledger
row.  The scheduler cadence is the configured `intervalMs = 60000` (60 s). -/
theorem cleanupRevokesExpiredWithRules (env : ExecEnv) (db : DB) (now : Nat) :
    (cleanupExpiredSessions env db now).1.map Prod.fst =
      (db.sessions.filter (fun s => decide (s.expiresAt < now) &&
        db.rules.any (fun r => r.sessionId == s.id && r.isActive))).map (fun s => s.id) ∧
    (∀ s ∈ db.sessions, s.expiresAt < now →
      activeRulesFor (cleanupExpiredSessions env db now).2 s.id = []) ∧
    firewallCleanupConfig.intervalMs = 60000 ∧
    firewallCleanupConfig.graceperiodMs = 5000 := by
  refine ⟨?_, ?_, rfl, rfl⟩
  · show (revokeAllLoop env (expiredSessionsWithRules db now) db).1.map Prod.fst = _
    rw [revokeAllLoop_ids]
    rfl
  · intro s hs hexp
    rw [cleanupExpiredSessions_state, activeRulesFor_cleanupBindings]
    apply revokeAllLoop_dead
    by_cases h : activeRulesFor db s.id = []
    · exact Or.inl h
    · right
      obtain ⟨r, hrmem⟩ := List.exists_mem_of_ne_nil _ h
      refine ⟨s, ?_, rfl⟩
      unfold expiredSessionsWithRules
      rw [List.mem_filter]
      refine ⟨hs, ?_⟩
      have hr' := List.mem_filter.mp hrmem
      simp only [Bool.and_eq_true, decide_eq_true_eq]
      exact ⟨hexp, List.any_eq_true.mpr ⟨r, hr'.1, hr'.2⟩⟩

/-- C9 witness: the amended cycle behavior at the concrete post-grant state,
showing session 1's rules are retracted by the cycle run 1 ms past expiry. -/
theorem cleanupRevokesExpiredWithRules_witness :
    activeRulesFor (cleanupExpiredSessions simEnv dbGranted 14400001).2 1 = [] := by
  have h := (cleanupRevokesExpiredWithRules simEnv dbGranted 14400001).2.1
  exact h ⟨1, none, some 1, 1, macX, ipA, "voucher", 14400000, true, true⟩ (by decide) (by decide)

/-! ### C1 — per-voucher session uniqueness (amended) -/

theorem getOrCreateDevice_sessions (db : DB) (m : String) :
    (getOrCreateDevice db m).2.sessions = db.sessions := by
  unfold getOrCreateDevice
  split <;> rfl

theorem getOrCreateDevice_bindings (db : DB) (m : String) :
    (getOrCreateDevice db m).2.bindings = db.bindings := by
  unfold getOrCreateDevice
  split <;> rfl

theorem markVoucherUsed_sessions (db : DB) (vid now : Nat) :
    (markVoucherUsed db vid now).sessions = db.sessions := rfl

theorem createSessionAuth_sessions (db : DB) (u v : Option Nat) (d : Nat)
    (m i a : String) (h n : Nat) :
    (createSessionAuth db u v d m i a h n).1.sessions =
      db.sessions ++ [⟨db.nextSessionId, u, v, d, m, i, a, n + h * 60 * 60 * 1000, true, false⟩] := by
  show (insertOrReplaceBinding _ _ _ _ _).1.sessions = _
  rw [insertOrReplaceBinding_sessions]

theorem markUserLoggedIn_sessions (db : DB) (uid now : Nat) :
    (markUserLoggedIn db uid now).sessions = db.sessions := rfl

theorem markUserLoggedIn_bindings (db : DB) (uid now : Nat) :
    (markUserLoggedIn db uid now).bindings = db.bindings := rfl

/-- C1 (amended): neither authentication path duplicates a session for the
same credential and MAC.  For `authenticateWithVoucher`: when the given
voucher and the normalized MAC already have an ACTIVE session, the call
resumes it and leaves the session and binding tables unchanged, and a new
session row is appended only when no ACTIVE session for that voucher and
MAC exists.  For `authenticateWithCredentials` (under any bcrypt outcome):
the same holds with the user account in place of the voucher.  Per-MAC
uniqueness of ACTIVE sessions across credentials does not hold, as the
counterexample shows with two vouchers. -/
theorem authenticate_perCredentialUniqueness (db : DB)
    (code username password mac ip : String) (now : Nat)
    (bcryptOk : String → String → Bool) :
    ((authenticateWithVoucher db code mac ip now).1.message = "Session resumed" →
      (authenticateWithVoucher db code mac ip now).2.sessions = db.sessions ∧
      (authenticateWithVoucher db code mac ip now).2.bindings = db.bindings) ∧
    ((authenticateWithVoucher db code mac ip now).1.message = "Authentication successful" →
      ∃ v, db.vouchers.find? (fun v' => v'.code == jsToUpper code && v'.isActive) = some v ∧
        db.sessions.find? (fun s => s.voucherId == some v.id &&
          s.mac == normalizeMacAddress (some mac) && s.isActive) = none ∧
        (authenticateWithVoucher db code mac ip now).2.sessions.length =
          db.sessions.length + 1) ∧
    ((authenticateWithCredentials bcryptOk db username password mac ip now).1.message =
        "Session resumed" →
      (authenticateWithCredentials bcryptOk db username password mac ip now).2.sessions =
        db.sessions ∧
      (authenticateWithCredentials bcryptOk db username password mac ip now).2.bindings =
        db.bindings) ∧
    ((authenticateWithCredentials bcryptOk db username password mac ip now).1.message =
        "Authentication successful" →
      ∃ u, db.users.find? (fun u' => u'.username == username && u'.isActive) = some u ∧
        db.sessions.find? (fun s => s.userId == some u.id &&
          s.mac == normalizeMacAddress (some mac) && s.isActive) = none ∧
        (authenticateWithCredentials bcryptOk db username password mac ip now).2.sessions.length =
          db.sessions.length + 1) := by
  refine ⟨?_, ?_, ?_, ?_⟩
  · simp only [authenticateWithVoucher]
    split
    · intro hmsg; simp at hmsg
    next v hv =>
      split
      · intro hmsg; simp at hmsg
      · split
        · intro hmsg; simp at hmsg
        · split
          · intro hmsg; simp at hmsg
          · split
            next s hE =>
              intro _
              exact ⟨getOrCreateDevice_sessions db (normalizeMacAddress (some mac)),
                getOrCreateDevice_bindings db (normalizeMacAddress (some mac))⟩
            next hE =>
              intro hmsg; simp at hmsg
  · simp only [authenticateWithVoucher]
    split
    · intro hmsg; simp at hmsg
    next v hv =>
      split
      · intro hmsg; simp at hmsg
      · split
        · intro hmsg; simp at hmsg
        · split
          · intro hmsg; simp at hmsg
          · split
            next s hE =>
              intro hmsg; simp at hmsg
            next hE =>
              intro _
              refine ⟨v, hv, hE, ?_⟩
              split
              · rw [markVoucherUsed_sessions, createSessionAuth_sessions,
                  List.length_append, getOrCreateDevice_sessions]
                rfl
              · rw [createSessionAuth_sessions, List.length_append,
                  getOrCreateDevice_sessions]
                rfl
  · simp only [authenticateWithCredentials]
    split
    · intro hmsg; simp at hmsg
    next u hu =>
      split
      · intro hmsg; simp at hmsg
      · split
        · intro hmsg; simp at hmsg
        · split
          · intro hmsg; simp at hmsg
          · split
            next s hE =>
              intro _
              exact ⟨getOrCreateDevice_sessions db (normalizeMacAddress (some mac)),
                getOrCreateDevice_bindings db (normalizeMacAddress (some mac))⟩
            next hE =>
              intro hmsg; simp at hmsg
  · simp only [authenticateWithCredentials]
    split
    · intro hmsg; simp at hmsg
    next u hu =>
      split
      · intro hmsg; simp at hmsg
      · split
        · intro hmsg; simp at hmsg
        · split
          · intro hmsg; simp at hmsg
          · split
            next s hE =>
              intro hmsg; simp at hmsg
            next hE =>
              intro _
              refine ⟨u, hu, hE, ?_⟩
              rw [markUserLoggedIn_sessions, createSessionAuth_sessions,
                List.length_append, getOrCreateDevice_sessions]
              rfl

/-- C1 witness: the amended statement applied on the credentials path to a
registered user with a fresh MAC (exactly one session row is created). -/
theorem authenticate_perCredentialUniqueness_witness :
    ∃ u, dbUserSeed.users.find? (fun u' => u'.username == "alice" && u'.isActive) = some u ∧
      dbUserSeed.sessions.find? (fun s => s.userId == some u.id &&
        s.mac == normalizeMacAddress (some macX) && s.isActive) = none ∧
      (authenticateWithCredentials bcryptAlways dbUserSeed "alice" "password1" macX ipA
        0).2.sessions.length = dbUserSeed.sessions.length + 1 :=
  (authenticate_perCredentialUniqueness dbUserSeed "TEST1234" "alice" "password1" macX ipA 0
    bcryptAlways).2.2.2 (by decide)

end SecureWifi
